import Mathlib

/-!
Shallow embedding of `src/ObjectAllocator.cpp` (a fixed-size-block object pool
allocator). Pointers are modeled as natural numbers, byte memory as a function
`Nat → Nat` (values < 256), the intrusive free list and page list as `List Nat`
of addresses (the real code threads the links through the first pointer-sized
bytes of each node; that byte-level aliasing is abstracted into the lists).
C++ exceptions are modeled by an outcome type carrying the state at the throw
point; undefined behaviour (null-pointer arithmetic, popping an empty free
list) is a distinguished `ub` outcome. The system allocator (`operator new`)
is an oracle: a schedule of failure bits plus a bump address counter, and
freshly obtained memory holds an arbitrary fixed byte `freshVal`.
Counters are C++ `unsigned`; they are modeled over `Nat` (no overflow occurs in
any regime considered here) with truncated subtraction for `--`.
-/

namespace OAModel

/-- Modelled from the spec: pattern bytes from section 6, declared in
`ObjectAllocator.h` which is not under `src/`. -/
def ALLOCATED_PATTERN : Nat := 0xAA

/-- Modelled from the spec: the freed-memory pattern byte. -/
def FREED_PATTERN : Nat := 0xBB

/-- Modelled from the spec: the never-allocated pattern byte. -/
def UNALLOCATED_PATTERN : Nat := 0xCC

/-- Modelled from the spec: the pad pattern byte. -/
def PAD_PATTERN : Nat := 0xDD

/-- Modelled from the spec: pages are chained through one pointer-sized cell;
we model a 64-bit platform, `sizeof(GenericObject*) = 8`. -/
def ptrSize : Nat := 8

/-- Header block type tag, mirroring `OAConfig::HBLOCK_TYPE`. -/
inductive HBType where
  | hbNone
  | hbBasic
  | hbExtended
  | hbExternal
deriving DecidableEq

/-- Mirrors `OAConfig::HeaderBlockInfo` (type tag and byte size). -/
structure HeaderBlockInfo where
  type_ : HBType
  size_ : Nat
deriving DecidableEq

/-- Mirrors the `OAConfig` fields read by `ObjectAllocator.cpp`. -/
structure OAConfig where
  UseCPPMemManager_ : Bool
  ObjectsPerPage_ : Nat
  MaxPages_ : Nat
  DebugOn_ : Bool
  PadBytes_ : Nat
  HBlockInfo_ : HeaderBlockInfo
deriving DecidableEq

/-- Modelled from the spec: `OAStats` is declared in `ObjectAllocator.h`
(not under `src/`); all counters start at zero. -/
structure OAStats where
  ObjectSize_ : Nat := 0
  PageSize_ : Nat := 0
  FreeObjects_ : Nat := 0
  ObjectsInUse_ : Nat := 0
  PagesInUse_ : Nat := 0
  MostObjects_ : Nat := 0
  Allocations_ : Nat := 0
  Deallocations_ : Nat := 0
deriving DecidableEq

/-- Mirrors `MemBlockInfo` (the external header record). A label is a byte
string; `none` models a null label pointer. -/
structure MemBlockInfo where
  alloc_num : Nat := 0
  in_use : Bool := false
  label : Option (List Nat) := none
deriving DecidableEq

/-- The allocator state: the `ObjectAllocator` members plus the system
allocator oracle (`nextAddr`, `sysFail`) and the heap of external records. -/
structure OAState where
  config : OAConfig
  stats : OAStats
  FullBlockSize : Nat
  FreeList_ : List Nat
  PageList_ : List Nat
  mem : Nat → Nat
  records : List (Nat × MemBlockInfo)
  nextAddr : Nat
  sysFail : List Bool

/-- Mirrors `OAException::OA_EXCEPTION` codes. -/
inductive OAException where
  | E_NO_MEMORY
  | E_NO_PAGES
  | E_BAD_BOUNDARY
  | E_MULTIPLE_FREE
  | E_CORRUPTED_BLOCK
deriving DecidableEq

/-- Outcome of an operation: normal return with the post-state, a thrown
exception with the state at the throw point, or undefined behaviour. -/
inductive Outcome (α : Type) where
  | ok : α → OAState → Outcome α
  | exn : OAException → OAState → Outcome α
  | ub : Outcome α

/-- The system allocator oracle (`operator new`): consult the failure
schedule; on success return a fresh address region of `n` bytes (regions are
separated by a gap, as nothing in the source relies on adjacency). -/
def sysNew (s : OAState) (n : Nat) : Option Nat × OAState :=
  match s.sysFail with
  | true :: rest => (none, { s with sysFail := rest })
  | false :: rest =>
      (some s.nextAddr, { s with sysFail := rest, nextAddr := s.nextAddr + n + 64 })
  | [] => (some s.nextAddr, { s with nextAddr := s.nextAddr + n + 64 })

/-- `memset(a, v, n)` on the byte memory. -/
def memsetB (m : Nat → Nat) (a v n : Nat) : Nat → Nat :=
  fun x => if a ≤ x ∧ x < a + n then v else m x

/-- Store one byte (truncated to 8 bits, as a `char` store is). -/
def writeByte (m : Nat → Nat) (a v : Nat) : Nat → Nat :=
  fun x => if x = a then v % 256 else m x

/-- Store an `n`-byte little-endian integer (an x86 `unsigned` store). -/
def writeLE (m : Nat → Nat) (a : Nat) : Nat → Nat → (Nat → Nat)
  | 0, _ => m
  | n + 1, v => writeLE (writeByte m a v) (a + 1) n (v / 256)

/-- Read an `n`-byte little-endian integer. -/
def readLE (m : Nat → Nat) (a : Nat) : Nat → Nat
  | 0 => 0
  | n + 1 => m a % 256 + 256 * readLE m (a + 1) n

/-- `ObjectAllocator::PushFront`: prepend a node to an intrusive list
(modeled as list cons; the in-memory next-pointer store is abstracted). -/
def PushFront (l : List Nat) (newNode : Nat) : List Nat :=
  newNode :: l

/-- `ObjectAllocator::IsObjectInList`: walk the list comparing addresses. -/
def IsObjectInList (list : List Nat) (object : Nat) : Bool :=
  list.contains object

/-- The slot-carving loop of `ObjectAllocator::AllocatePage` (lines 464-494):
given the running `paddingLocation` (start of the previous slot's right pad),
zero the next header, imprint patterns when debugging, and push each object
onto the free list; iterated `ObjectsPerPage_ - 1` times. Returns the final
memory and free list. -/
def carve (debug : Bool) (padBytes hbSize objectSize : Nat) :
    Nat → Nat → (Nat → Nat) → List Nat → ((Nat → Nat) × List Nat)
  | 0, _, m, fl => (m, fl)
  | i + 1, paddingLocation, m, fl =>
      let hbLocation := paddingLocation + padBytes
      let m1 := memsetB m hbLocation 0 hbSize
      let padLoc2 := paddingLocation + padBytes + hbSize
      let m2 := if debug then memsetB m1 padLoc2 PAD_PATTERN padBytes else m1
      let block := padLoc2 + padBytes
      let m3 := if debug then memsetB m2 block UNALLOCATED_PATTERN objectSize else m2
      let padLoc3 := block + objectSize
      let m4 := if debug then memsetB m3 padLoc3 PAD_PATTERN padBytes else m3
      carve debug padBytes hbSize objectSize i padLoc3 m4 (PushFront fl block)

/-- `ObjectAllocator::AllocatePage`: obtain a page from the system allocator
(throwing `E_NO_MEMORY` on failure), zero the first header, imprint the first
slot's patterns when debugging, push the page, bump `PagesInUse_` and
`FreeObjects_`, reset the free list to the first slot and carve the rest.
The source's loop bound `ObjectsPerPage_ - 1` is unsigned; configurations
require `ObjectsPerPage_ ≥ 1`, so `Nat` truncated subtraction is faithful. -/
def AllocatePage (s : OAState) : Outcome Unit :=
  match sysNew s s.stats.PageSize_ with
  | (none, s1) => .exn .E_NO_MEMORY s1
  | (some newPage, s1) =>
      let hbLocation := newPage + ptrSize
      let m0 := memsetB s1.mem hbLocation 0 s1.config.HBlockInfo_.size_
      let paddingLocation := newPage + s1.config.HBlockInfo_.size_ + ptrSize
      let m1 := if s1.config.DebugOn_ then memsetB m0 paddingLocation PAD_PATTERN s1.config.PadBytes_ else m0
      let pageList := PushFront s1.PageList_ newPage
      let stats1 := { s1.stats with
        PagesInUse_ := s1.stats.PagesInUse_ + 1,
        FreeObjects_ := s1.stats.FreeObjects_ + s1.config.ObjectsPerPage_ }
      let block := paddingLocation + s1.config.PadBytes_
      let m2 := if s1.config.DebugOn_ then memsetB m1 block UNALLOCATED_PATTERN s1.stats.ObjectSize_ else m1
      let padLoc2 := block + s1.stats.ObjectSize_
      let m3 := if s1.config.DebugOn_ then memsetB m2 padLoc2 PAD_PATTERN s1.config.PadBytes_ else m2
      let carved := carve s1.config.DebugOn_ s1.config.PadBytes_ s1.config.HBlockInfo_.size_
        s1.stats.ObjectSize_ (s1.config.ObjectsPerPage_ - 1) padLoc2 m3 [block]
      .ok () { s1 with
        mem := carved.1, FreeList_ := carved.2, PageList_ := pageList, stats := stats1 }

/-- `ObjectAllocator::AllocateExternalHeaderBlock`: allocate the record
(the pointer is stored into the header cell immediately, before the label is
allocated), then allocate and copy the label, then set the record fields. -/
def AllocateExternalHeaderBlock (s : OAState) (cell : Nat) (label : Option (List Nat)) :
    Outcome Unit :=
  match sysNew s 24 with
  | (none, s1) => .exn .E_NO_MEMORY s1
  | (some recAddr, s1) =>
      let s2 := { s1 with
        mem := writeLE s1.mem cell ptrSize recAddr,
        records := (recAddr, ({} : MemBlockInfo)) :: s1.records }
      match label with
      | some lbl =>
          match sysNew s2 (lbl.length + 1) with
          | (none, s3) => .exn .E_NO_MEMORY s3
          | (some _, s3) =>
              let rec1 : MemBlockInfo :=
                { alloc_num := s3.stats.Allocations_, in_use := true, label := some lbl }
              .ok () { s3 with
                records := (recAddr, rec1) :: (s3.records.filter (fun p => p.1 ≠ recAddr)) }
      | none =>
          let rec1 : MemBlockInfo :=
            { alloc_num := s2.stats.Allocations_, in_use := true, label := none }
          .ok () { s2 with
            records := (recAddr, rec1) :: (s2.records.filter (fun p => p.1 ≠ recAddr)) }

/-- `ObjectAllocator::FreeExternalHeaderBlock`: read the record pointer from
the header cell, delete the label and record, null the cell. Deleting through
a pointer that is not a live record is undefined behaviour. -/
def FreeExternalHeaderBlock (s : OAState) (cell : Nat) : Outcome Unit :=
  let p := readLE s.mem cell ptrSize
  match s.records.find? (fun q => q.1 = p) with
  | none => .ub
  | some _ =>
      .ok () { s with
        records := s.records.filter (fun q => q.1 ≠ p),
        mem := writeLE s.mem cell ptrSize 0 }

/-- `ObjectAllocator::AssignHeaderBlockValues`: dispatch on the header type.
Basic/Extended: flag byte at `object - PadBytes_ - 1` (bit 0 set on allocate,
cleared on free), 4-byte allocation number right below it (written with the
current `Allocations_` on allocate, zeroed on free), and for Extended a 2-byte
reuse counter below that, incremented on allocate. External: the pointer cell
at `object - PadBytes_ - size_`. -/
def AssignHeaderBlockValues (s : OAState) (object : Nat) (alloc : Bool)
    (label : Option (List Nat)) : Outcome Unit :=
  match s.config.HBlockInfo_.type_ with
  | .hbNone => .ok () s
  | .hbExternal =>
      let cell := object - s.config.PadBytes_ - s.config.HBlockInfo_.size_
      if alloc then AllocateExternalHeaderBlock s cell label
      else FreeExternalHeaderBlock s cell
  | t =>
      let flag := object - s.config.PadBytes_ - 1
      let m1 := writeByte s.mem flag
        (if alloc then (s.mem flag) ||| 1 else (s.mem flag) &&& 254)
      let allocNum := flag - 4
      let m2 := writeLE m1 allocNum 4 (if alloc then s.stats.Allocations_ else 0)
      let m3 :=
        if t = .hbExtended then
          (let reuseNum := allocNum - 2
           if alloc then writeLE m2 reuseNum 2 (readLE m2 reuseNum 2 + 1) else m2)
        else m2
      .ok () { s with mem := m3 }

/-- `ObjectAllocator::AllocateWithCPPManager`: bump counters (comparing
`Allocations_` against `MostObjects_`, as the source does), then obtain the
block from the system allocator. -/
def AllocateWithCPPManager (s : OAState) : Outcome Nat :=
  let stats1 := { s.stats with
    Allocations_ := s.stats.Allocations_ + 1,
    ObjectsInUse_ := s.stats.ObjectsInUse_ + 1 }
  let stats2 :=
    if stats1.Allocations_ > stats1.MostObjects_ then
      { stats1 with MostObjects_ := stats1.Allocations_ }
    else stats1
  let s1 := { s with stats := stats2 }
  match sysNew s1 s1.stats.ObjectSize_ with
  | (none, s2) => .exn .E_NO_MEMORY s2
  | (some a, s2) => .ok a s2

/-- `ObjectAllocator::Allocate`: passthrough dispatch; page creation when the
free list is empty (throwing `E_NO_PAGES` when `PagesInUse_ < MaxPages_`
fails); stats update; header write; pop of the free-list head; `ALLOCATED`
imprint when debugging; `MostObjects_` update (against `Allocations_`). -/
def Allocate (s : OAState) (label : Option (List Nat)) : Outcome Nat :=
  if s.config.UseCPPMemManager_ then AllocateWithCPPManager s
  else
    match (if s.stats.FreeObjects_ = 0 then
             (if s.stats.PagesInUse_ < s.config.MaxPages_ then AllocatePage s
              else .exn .E_NO_PAGES s)
           else .ok () s) with
    | .ub => .ub
    | .exn e s1 => .exn e s1
    | .ok _ s1 =>
        let stats1 := { s1.stats with
          FreeObjects_ := s1.stats.FreeObjects_ - 1,
          Allocations_ := s1.stats.Allocations_ + 1,
          ObjectsInUse_ := s1.stats.ObjectsInUse_ + 1 }
        let s2 := { s1 with stats := stats1 }
        match s2.FreeList_ with
        | [] => .ub
        | availableBlock :: rest =>
            match AssignHeaderBlockValues s2 availableBlock true label with
            | .ub => .ub
            | .exn e s3 => .exn e s3
            | .ok _ s3 =>
                let s4 := { s3 with FreeList_ := rest }
                let s5 :=
                  if s4.config.DebugOn_ then
                    { s4 with mem := memsetB s4.mem availableBlock ALLOCATED_PATTERN s4.stats.ObjectSize_ }
                  else s4
                let s6 :=
                  if s5.stats.Allocations_ > s5.stats.MostObjects_ then
                    { s5 with stats := { s5.stats with MostObjects_ := s5.stats.Allocations_ } }
                  else s5
                .ok availableBlock s6

/-- `ObjectAllocator::ObjectPageLocation`: first page of the page list with
`page ≤ Object ∧ Object ≤ page + PageSize_` (note the inclusive upper bound). -/
def ObjectPageLocation (s : OAState) (Object : Nat) : Option Nat :=
  s.PageList_.find? (fun page => decide (page ≤ Object) && decide (Object ≤ page + s.stats.PageSize_))

/-- `ObjectAllocator::CheckForPaddingCorruption`: true iff some byte of either
pad region bracketing the object differs from `PAD_PATTERN`. -/
def CheckForPaddingCorruption (s : OAState) (object : Nat) : Bool :=
  (List.range s.config.PadBytes_).any (fun i =>
    decide (s.mem (object - s.config.PadBytes_ + i) ≠ PAD_PATTERN) ||
    decide (s.mem (object + s.stats.ObjectSize_ + i) ≠ PAD_PATTERN))

/-- `ObjectAllocator::CheckForBadBoundary`: locate the containing page (null
page pointer arithmetic is undefined behaviour) and throw `E_BAD_BOUNDARY`
unless the offset from the first object is a multiple of `FullBlockSize`.
Pointer difference is signed, hence the `Int` arithmetic. -/
def CheckForBadBoundary (s : OAState) (block : Nat) : Outcome Unit :=
  match ObjectPageLocation s block with
  | none => .ub
  | some page =>
      let firstBlockLocation := page + s.config.HBlockInfo_.size_ + s.config.PadBytes_ + ptrSize
      if ((block : Int) - (firstBlockLocation : Int)) % (s.FullBlockSize : Int) ≠ 0 then
        .exn .E_BAD_BOUNDARY s
      else .ok () s

/-- `ObjectAllocator::Free`: passthrough dispatch; with debug on, double-free,
boundary and pad-corruption checks; header reset; `FREED` imprint when
debugging; push onto the free list; stats update. -/
def Free (s : OAState) (Object : Nat) : Outcome Unit :=
  if s.config.UseCPPMemManager_ then
    .ok () { s with stats := { s.stats with
      Deallocations_ := s.stats.Deallocations_ + 1,
      ObjectsInUse_ := s.stats.ObjectsInUse_ - 1 } }
  else
    match (if s.config.DebugOn_ then
             (if IsObjectInList s.FreeList_ Object then Outcome.exn .E_MULTIPLE_FREE s
              else match CheckForBadBoundary s Object with
                | .ub => Outcome.ub
                | .exn e s1 => Outcome.exn e s1
                | .ok _ s1 =>
                    if s1.config.PadBytes_ > 0 then
                      (if CheckForPaddingCorruption s1 Object then Outcome.exn .E_CORRUPTED_BLOCK s1
                       else Outcome.ok () s1)
                    else Outcome.ok () s1)
           else Outcome.ok () s) with
    | .ub => .ub
    | .exn e s1 => .exn e s1
    | .ok _ s1 =>
        match AssignHeaderBlockValues s1 Object false none with
        | .ub => .ub
        | .exn e s2 => .exn e s2
        | .ok _ s2 =>
            let s3 :=
              if s2.config.DebugOn_ then
                { s2 with mem := memsetB s2.mem Object FREED_PATTERN s2.stats.ObjectSize_ }
              else s2
            let s4 := { s3 with FreeList_ := PushFront s3.FreeList_ Object }
            .ok () { s4 with stats := { s4.stats with
              FreeObjects_ := s4.stats.FreeObjects_ + 1,
              Deallocations_ := s4.stats.Deallocations_ + 1,
              ObjectsInUse_ := s4.stats.ObjectsInUse_ - 1 } }

/-- Addresses visited by the traversal inner loop: from `block`, step by the
stride while below `stop`. The source's loop requires a positive stride
(object size is positive in any valid configuration). -/
def blockAddrs (stop stride : Nat) (block : Nat) : List Nat :=
  if h : block < stop ∧ 0 < stride then block :: blockAddrs stop stride (block + stride)
  else []
termination_by stop - block
decreasing_by omega

/-- Slot walk of one page, used by both traversal services: start at
`page + sizeof(link) + header + pad`, step by the block stride, stop at
`page + PageSize_`. -/
def pageBlocks (s : OAState) (page : Nat) : List Nat :=
  blockAddrs (page + s.stats.PageSize_)
    (s.stats.ObjectSize_ + s.config.HBlockInfo_.size_ + s.config.PadBytes_ * 2)
    (page + ptrSize + s.config.HBlockInfo_.size_ + s.config.PadBytes_)

/-- `ObjectAllocator::DumpMemoryInUse`: invoke the callback on every slot not
on the free list (the invocation list is returned) and return
`ObjectsInUse_`. -/
def DumpMemoryInUse (s : OAState) : List (Nat × Nat) × Nat :=
  ((s.PageList_.flatMap (fun page =>
      (pageBlocks s page).filter (fun b => !IsObjectInList s.FreeList_ b))).map
    (fun b => (b, s.stats.ObjectSize_)),
   s.stats.ObjectsInUse_)

/-- `ObjectAllocator::ValidatePages`: invoke the callback on every slot whose
pads are corrupted and return the number of such slots. -/
def ValidatePages (s : OAState) : List (Nat × Nat) × Nat :=
  let bad := s.PageList_.flatMap (fun page =>
    (pageBlocks s page).filter (fun b => CheckForPaddingCorruption s b))
  (bad.map (fun b => (b, s.stats.ObjectSize_)), bad.length)

/-- The `ObjectAllocator` constructor: compute `FullBlockSize` and
`PageSize_`; in passthrough mode stop there, otherwise zero `FreeObjects_`
and allocate the first page. `nextAddr0` seeds the system allocator's
addresses and `freshVal` the indeterminate contents of fresh memory. -/
def mkObjectAllocator (ObjectSize : Nat) (config : OAConfig) (nextAddr0 freshVal : Nat)
    (sysFail : List Bool) : Outcome Unit :=
  let FullBlockSize := ObjectSize + config.PadBytes_ * 2 + config.HBlockInfo_.size_
  let s0 : OAState := {
    config := config
    stats := { ObjectSize_ := ObjectSize,
               PageSize_ := FullBlockSize * config.ObjectsPerPage_ + ptrSize }
    FullBlockSize := FullBlockSize
    FreeList_ := []
    PageList_ := []
    mem := fun _ => freshVal
    records := []
    nextAddr := nextAddr0
    sysFail := sysFail }
  if config.UseCPPMemManager_ then .ok () s0
  else AllocatePage s0

/-- A public operation: `Allocate(label)` or `Free(addr)`. -/
inductive Op where
  | alloc : Option (List Nat) → Op
  | free : Nat → Op

/-- One public call, returning the allocated address when there is one. -/
def applyOp (s : OAState) : Op → Outcome (Option Nat)
  | .alloc label =>
      match Allocate s label with
      | .ok a s1 => .ok (some a) s1
      | .exn e s1 => .exn e s1
      | .ub => .ub
  | .free a =>
      match Free s a with
      | .ok _ s1 => .ok none s1
      | .exn e s1 => .exn e s1
      | .ub => .ub

/-- Run a call sequence, stopping at the first exception or UB. -/
def runOps (s : OAState) : List Op → Outcome (Option Nat)
  | [] => .ok none s
  | op :: ops =>
      match applyOp s op with
      | .ok _ s1 => runOps s1 ops
      | .exn e s1 => .exn e s1
      | .ub => .ub

/-- Construct an allocator and run a call sequence on it. -/
def runOA (ObjectSize : Nat) (config : OAConfig) (nextAddr0 freshVal : Nat)
    (sysFail : List Bool) (ops : List Op) : Outcome (Option Nat) :=
  match mkObjectAllocator ObjectSize config nextAddr0 freshVal sysFail with
  | .ok _ s => runOps s ops
  | .exn e s => .exn e s
  | .ub => .ub

/-- Stats of a normal outcome. -/
def okStats {α : Type} : Outcome α → Option OAStats
  | .ok _ s => some s.stats
  | _ => none

/-- Stats of the state at a throw point. -/
def exnStats {α : Type} : Outcome α → Option OAStats
  | .exn _ s => some s.stats
  | _ => none

/-- The thrown exception, if any. -/
def outExn {α : Type} : Outcome α → Option OAException
  | .exn e _ => some e
  | _ => none

/-- The returned address of a successful run, if any. -/
def okRet : Outcome (Option Nat) → Option Nat
  | .ok r _ => r
  | _ => none

/-- Free list of a normal outcome. -/
def okFreeList {α : Type} : Outcome α → Option (List Nat)
  | .ok _ s => some s.FreeList_
  | _ => none

/-- Page list of a normal outcome. -/
def okPageList {α : Type} : Outcome α → Option (List Nat)
  | .ok _ s => some s.PageList_
  | _ => none

/-- One memory byte of a normal outcome. -/
def okMem {α : Type} (a : Nat) : Outcome α → Option Nat
  | .ok _ s => some (s.mem a)
  | _ => none

/-- A placeholder state (used only as the default of `okStateD`). -/
def dummyState : OAState :=
  { config := { UseCPPMemManager_ := true, ObjectsPerPage_ := 1, MaxPages_ := 1,
                DebugOn_ := false, PadBytes_ := 0,
                HBlockInfo_ := { type_ := .hbNone, size_ := 0 } }
    stats := {}
    FullBlockSize := 0
    FreeList_ := []
    PageList_ := []
    mem := fun _ => 0
    records := []
    nextAddr := 0
    sysFail := [] }

/-- State of a normal outcome, defaulting to `dummyState`. -/
def okStateD {α : Type} : Outcome α → OAState
  | .ok _ s => s
  | _ => dummyState

end OAModel

namespace OAModel

/-- Value returned by a normal outcome. -/
def okVal {α : Type} : Outcome α → Option α
  | .ok v _ => some v
  | _ => none

/-- Configuration for the C1 evidence: 2 objects per page, 1 page, no pads,
no header, debug off, non-passthrough. -/
def cfgC1 : OAConfig :=
  { UseCPPMemManager_ := false
    ObjectsPerPage_ := 2
    MaxPages_ := 1
    DebugOn_ := false
    PadBytes_ := 0
    HBlockInfo_ := { type_ := .hbNone, size_ := 0 } }

/-- C1: the source updates `MostObjects_` by comparing it against
`Allocations_` (total allocations), not against `ObjectsInUse_`. On the
sequence Allocate; Free; Allocate, `ObjectsInUse_` is 0, 1, 0, 1 after the
successive prefixes (its maximum over the history is 1), yet the final
`MostObjects_` is 2 — the total number of allocations, not the peak of
concurrently in-use objects. -/
theorem C1_most_objects_is_total_allocations :
    okStats (runOA 8 cfgC1 1000 0 [] [.alloc none, .free 1016, .alloc none]) =
      some { ObjectSize_ := 8
             PageSize_ := 24
             FreeObjects_ := 1
             ObjectsInUse_ := 1
             PagesInUse_ := 1
             MostObjects_ := 2
             Allocations_ := 2
             Deallocations_ := 1 }
    ∧ (okStats (runOA 8 cfgC1 1000 0 [] [])).map OAStats.ObjectsInUse_ = some 0
    ∧ (okStats (runOA 8 cfgC1 1000 0 [] [.alloc none])).map OAStats.ObjectsInUse_ = some 1
    ∧ (okStats (runOA 8 cfgC1 1000 0 [] [.alloc none, .free 1016])).map
        OAStats.ObjectsInUse_ = some 0 := by
  decide

/-- Configuration for the C2 evidence: `MaxPages_ = 0` (documented as
unlimited), one object per page. -/
def cfgC2 : OAConfig :=
  { UseCPPMemManager_ := false
    ObjectsPerPage_ := 1
    MaxPages_ := 0
    DebugOn_ := false
    PadBytes_ := 0
    HBlockInfo_ := { type_ := .hbNone, size_ := 0 } }

/-- C2: with `MaxPages_ = 0` the guard `PagesInUse_ < MaxPages_` in
`Allocate` is always false, so the second Allocate (free list empty) throws
`E_NO_PAGES` instead of creating a page; the first page is still created at
construction. -/
theorem C2_max_pages_zero_raises_no_pages :
    outExn (runOA 8 cfgC2 1000 0 [] [.alloc none, .alloc none]) = some .E_NO_PAGES
    ∧ (okStats (runOA 8 cfgC2 1000 0 [] [])).map OAStats.PagesInUse_ = some 1
    ∧ (okStats (runOA 8 cfgC2 1000 0 [] [.alloc none])).map OAStats.PagesInUse_ = some 1 := by
  decide

/-- Configuration for the C3 counterexample: one pad byte, debug off. -/
def cfgC3 : OAConfig :=
  { UseCPPMemManager_ := false
    ObjectsPerPage_ := 1
    MaxPages_ := 1
    DebugOn_ := false
    PadBytes_ := 1
    HBlockInfo_ := { type_ := .hbNone, size_ := 0 } }

/-- C3 counterexample: with debug off, `AllocatePage` leaves the pad bytes at
the fresh-memory contents (here 0), not `PAD_PATTERN` — every `PAD` imprint
in the source is guarded by `DebugOn_`. The page sits at 1000; the single
slot's left pad byte is at 1008 and its right pad byte at 1017. -/
theorem C3_pads_unwritten_when_debug_off :
    okMem 1008 (mkObjectAllocator 8 cfgC3 1000 0 []) = some 0
    ∧ okMem 1017 (mkObjectAllocator 8 cfgC3 1000 0 []) = some 0
    ∧ (0 : Nat) ≠ PAD_PATTERN := by
  decide

/-- Configuration for the C4 counterexample: two objects per page. -/
def cfgC4 : OAConfig :=
  { UseCPPMemManager_ := false
    ObjectsPerPage_ := 2
    MaxPages_ := 1
    DebugOn_ := false
    PadBytes_ := 0
    HBlockInfo_ := { type_ := .hbNone, size_ := 0 } }

/-- C4 counterexample: after construction (page at 1000, slots at 1008 and
1016), the free-list head is 1016 — the highest-address slot, not the lowest
(1008 is on the list below it) — and the next Allocate returns 1016. -/
theorem C4_head_not_lowest_addr :
    okFreeList (mkObjectAllocator 8 cfgC4 1000 0 []) = some [1016, 1008]
    ∧ okVal (Allocate (okStateD (mkObjectAllocator 8 cfgC4 1000 0 [])) none) = some 1016
    ∧ (1008 : Nat) < 1016 := by
  decide

/-- Configuration for the C5 counterexample: passthrough mode. -/
def cfgC5 : OAConfig :=
  { UseCPPMemManager_ := true
    ObjectsPerPage_ := 2
    MaxPages_ := 1
    DebugOn_ := false
    PadBytes_ := 0
    HBlockInfo_ := { type_ := .hbNone, size_ := 0 } }

/-- C5 counterexample: in passthrough mode, after a single Allocate,
`DumpMemoryInUse` returns `ObjectsInUse_ = 1`, not 0 (its page walk is empty
but its return value is the stat); `ValidatePages` does return 0. -/
theorem C5_dump_returns_objects_in_use :
    (DumpMemoryInUse (okStateD (runOA 8 cfgC5 1000 0 [] [.alloc none]))).2 = 1
    ∧ (ValidatePages (okStateD (runOA 8 cfgC5 1000 0 [] [.alloc none]))).2 = 0
    ∧ (1 : Nat) ≠ 0 := by
  decide

/-- Configuration for the C6 counterexample: external header, one object per
page; the system-allocation schedule makes the page succeed and the external
record fail. -/
def cfgC6 : OAConfig :=
  { UseCPPMemManager_ := false
    ObjectsPerPage_ := 1
    MaxPages_ := 1
    DebugOn_ := false
    PadBytes_ := 0
    HBlockInfo_ := { type_ := .hbExternal, size_ := 8 } }

/-- C6 counterexample: Allocate updates `FreeObjects_`, `Allocations_` and
`ObjectsInUse_` before invoking the header engine, so when external-record
creation throws `E_NO_MEMORY` the stats are already mutated (compare the
post-construction stats, whose `Allocations_` is 0 and `FreeObjects_` 1). -/
theorem C6_external_no_memory_not_atomic :
    outExn (runOA 8 cfgC6 1000 0 [false, true] [.alloc none]) = some .E_NO_MEMORY
    ∧ exnStats (runOA 8 cfgC6 1000 0 [false, true] [.alloc none]) =
        some { ObjectSize_ := 8
               PageSize_ := 24
               FreeObjects_ := 0
               ObjectsInUse_ := 1
               PagesInUse_ := 1
               MostObjects_ := 0
               Allocations_ := 1
               Deallocations_ := 0 }
    ∧ (okStats (runOA 8 cfgC6 1000 0 [false, true] [])).map OAStats.Allocations_ = some 0
    ∧ (okStats (runOA 8 cfgC6 1000 0 [false, true] [])).map OAStats.FreeObjects_ = some 1 := by
  decide

/-- Configuration for the C7 counterexample: `N = 2`, `M = 2`. -/
def cfgC7 : OAConfig :=
  { UseCPPMemManager_ := false
    ObjectsPerPage_ := 2
    MaxPages_ := 2
    DebugOn_ := false
    PadBytes_ := 0
    HBlockInfo_ := { type_ := .hbNone, size_ := 0 } }

/-- C7 counterexample: with `N = 2`, `M = 2`, the first Allocate satisfies the
claim's condition (`1 mod 2 = 1`, `⌈1/2⌉ = 1 ≤ 2`) yet creates no page:
`PagesInUse_` is already 1 after construction and stays 1 after the first
Allocate (the first page is created by the constructor, not the first
Allocate). The third Allocate does create the second page. -/
theorem C7_first_alloc_creates_no_page :
    (okStats (runOA 8 cfgC7 1000 0 [] [])).map OAStats.PagesInUse_ = some 1
    ∧ (okStats (runOA 8 cfgC7 1000 0 [] [.alloc none])).map OAStats.PagesInUse_ = some 1
    ∧ (okStats (runOA 8 cfgC7 1000 0 [] [.alloc none, .alloc none, .alloc none])).map
        OAStats.PagesInUse_ = some 2
    ∧ (1 : Nat) % 2 = 1 ∧ (1 + 2 - 1) / 2 ≤ 2 := by
  decide

/-- Configuration for the C8 counterexample: one object per page, debug off. -/
def cfgC8 : OAConfig :=
  { UseCPPMemManager_ := false
    ObjectsPerPage_ := 1
    MaxPages_ := 1
    DebugOn_ := false
    PadBytes_ := 0
    HBlockInfo_ := { type_ := .hbNone, size_ := 0 } }

/-- C8 counterexample: with debug off, Free performs no double-free check, so
the raise-free sequence Allocate; Free(1008); Free(1008) leaves
`FreeObjects_ = 2` and `ObjectsInUse_ = 0` while `PagesInUse_ · N = 1`:
the invariant `free + in_use = pages · N` fails with no exception raised.
(The C++ `ObjectsInUse_--` underflows an unsigned; under either wrapped or
truncated subtraction the sum differs from 1.) -/
theorem C8_double_free_breaks_invariant :
    okStats (runOA 8 cfgC8 1000 0 [] [.alloc none, .free 1008, .free 1008]) =
      some { ObjectSize_ := 8
             PageSize_ := 16
             FreeObjects_ := 2
             ObjectsInUse_ := 0
             PagesInUse_ := 1
             MostObjects_ := 1
             Allocations_ := 1
             Deallocations_ := 2 }
    ∧ (2 : Nat) + 0 ≠ 1 * 1 := by
  decide

end OAModel

namespace OAModel

/-- Bytes below a `memset` region are untouched. -/
theorem memsetB_lt (m : Nat → Nat) (a v n x : Nat) (h : x < a) : memsetB m a v n x = m x := by
  unfold memsetB
  have : ¬(a ≤ x ∧ x < a + n) := by omega
  simp [this]

/-- Bytes outside a `memset` region are untouched. -/
theorem memsetB_out (m : Nat → Nat) (a v n x : Nat) (h : x < a ∨ a + n ≤ x) :
    memsetB m a v n x = m x := by
  unfold memsetB
  have : ¬(a ≤ x ∧ x < a + n) := by omega
  simp [this]

/-- Bytes inside a `memset` region read back the written value. -/
theorem memsetB_in (m : Nat → Nat) (a v n x : Nat) (h : a ≤ x ∧ x < a + n) :
    memsetB m a v n x = v := by
  unfold memsetB
  simp [h]

/-- Bytes outside a little-endian store are untouched. -/
theorem writeLE_out (m : Nat → Nat) (a : Nat) :
    ∀ (n : Nat) (v x : Nat), (x < a ∨ a + n ≤ x) → writeLE m a n v x = m x := by
  intro n
  induction n generalizing m a with
  | zero => intro v x _; rfl
  | succ k ih =>
      intro v x hx
      show writeLE (writeByte m a v) (a + 1) k (v / 256) x = m x
      rw [ih (writeByte m a v) (a + 1) (v / 256) x (by omega)]
      unfold writeByte
      have : x ≠ a := by omega
      simp [this]

/-- Reading agrees on memories that agree on the read region. -/
theorem readLE_congr (m1 m2 : Nat → Nat) (a : Nat) :
    ∀ n : Nat, (∀ i, i < n → m1 (a + i) = m2 (a + i)) → readLE m1 a n = readLE m2 a n := by
  intro n
  induction n generalizing a with
  | zero => intro _; rfl
  | succ k ih =>
      intro h
      show m1 a % 256 + 256 * readLE m1 (a + 1) k = m2 a % 256 + 256 * readLE m2 (a + 1) k
      have h0 : m1 a = m2 a := by
        have := h 0 (by omega)
        simpa using this
      rw [h0, ih (a + 1) (fun i hi => by
        have := h (i + 1) (by omega)
        rw [show a + 1 + i = a + (i + 1) by omega]
        exact this)]

/-- A little-endian store reads back as the value modulo `256^n`. -/
theorem readLE_writeLE (m : Nat → Nat) (a : Nat) :
    ∀ (n : Nat) (v : Nat), readLE (writeLE m a n v) a n = v % 256 ^ n := by
  intro n
  induction n generalizing m a with
  | zero => intro v; simp [readLE, Nat.mod_one]
  | succ k ih =>
      intro v
      show readLE (writeLE (writeByte m a v) (a + 1) k (v / 256)) a (k + 1) = v % 256 ^ (k + 1)
      unfold readLE
      rw [writeLE_out (writeByte m a v) (a + 1) k (v / 256) a (by omega)]
      rw [ih (writeByte m a v) (a + 1) (v / 256)]
      have hwb : writeByte m a v a = v % 256 := by
        unfold writeByte
        simp
      rw [hwb, Nat.mod_mod_of_dvd v (dvd_refl 256), pow_succ', Nat.mod_mul]

end OAModel

namespace OAModel

/-- The memory and free list produced by the page-carving part of
`AllocatePage` on the page at `s.nextAddr` (the body of the success branch,
factored out for reuse in lemmas). -/
def pageCarve (s : OAState) : (Nat → Nat) × List Nat :=
  let newPage := s.nextAddr
  let m0 := memsetB s.mem (newPage + ptrSize) 0 s.config.HBlockInfo_.size_
  let paddingLocation := newPage + s.config.HBlockInfo_.size_ + ptrSize
  let m1 := if s.config.DebugOn_ then memsetB m0 paddingLocation PAD_PATTERN s.config.PadBytes_ else m0
  let block := paddingLocation + s.config.PadBytes_
  let m2 := if s.config.DebugOn_ then memsetB m1 block UNALLOCATED_PATTERN s.stats.ObjectSize_ else m1
  let padLoc2 := block + s.stats.ObjectSize_
  let m3 := if s.config.DebugOn_ then memsetB m2 padLoc2 PAD_PATTERN s.config.PadBytes_ else m2
  carve s.config.DebugOn_ s.config.PadBytes_ s.config.HBlockInfo_.size_ s.stats.ObjectSize_
    (s.config.ObjectsPerPage_ - 1) padLoc2 m3 [block]

/-- `AllocatePage` throws only `E_NO_MEMORY`, and the allocator state at the
throw point is unchanged (only the oracle schedule has advanced). -/
theorem AllocatePage_exn (s : OAState) (e : OAException) (s1 : OAState)
    (h : AllocatePage s = .exn e s1) :
    e = .E_NO_MEMORY ∧ s1.stats = s.stats ∧ s1.FreeList_ = s.FreeList_
    ∧ s1.PageList_ = s.PageList_ ∧ s1.mem = s.mem ∧ s1.records = s.records := by
  unfold AllocatePage sysNew at h
  cases hsf : s.sysFail with
  | nil =>
      rw [hsf] at h
      simp at h
  | cons b rest =>
      rw [hsf] at h
      cases b with
      | false => simp at h
      | true =>
          simp only [Outcome.exn.injEq] at h
          obtain ⟨he, hs⟩ := h
          subst he
          subst hs
          exact ⟨rfl, rfl, rfl, rfl, rfl, rfl⟩

/-- Successful `AllocatePage`: the new page (at `s.nextAddr`) is pushed onto
the page list, `PagesInUse_` and `FreeObjects_` are bumped, and the memory
and free list are those of `pageCarve`. -/
theorem AllocatePage_ok (s : OAState) (s1 : OAState) (h : AllocatePage s = .ok () s1) :
    s1.config = s.config
    ∧ s1.stats = { s.stats with
        PagesInUse_ := s.stats.PagesInUse_ + 1,
        FreeObjects_ := s.stats.FreeObjects_ + s.config.ObjectsPerPage_ }
    ∧ s1.FullBlockSize = s.FullBlockSize
    ∧ s1.PageList_ = s.nextAddr :: s.PageList_
    ∧ s1.mem = (pageCarve s).1
    ∧ s1.FreeList_ = (pageCarve s).2
    ∧ s1.records = s.records
    ∧ s1.sysFail = s.sysFail.tail := by
  unfold AllocatePage sysNew at h
  cases hsf : s.sysFail with
  | nil =>
      rw [hsf] at h
      simp only [Outcome.ok.injEq, true_and] at h
      subst h
      exact ⟨rfl, rfl, rfl, rfl, rfl, rfl, rfl, rfl⟩
  | cons b rest =>
      rw [hsf] at h
      cases b with
      | true => simp at h
      | false =>
          simp only [Outcome.ok.injEq, true_and] at h
          subst h
          exact ⟨rfl, rfl, rfl, rfl, rfl, rfl, rfl, rfl⟩

end OAModel

namespace OAModel

/-- `CheckForBadBoundary` throws only `E_BAD_BOUNDARY`, with the state
unchanged. -/
theorem CheckForBadBoundary_exn (s : OAState) (b : Nat) (e : OAException) (s1 : OAState)
    (h : CheckForBadBoundary s b = .exn e s1) : e = .E_BAD_BOUNDARY ∧ s1 = s := by
  unfold CheckForBadBoundary at h
  cases hpl : ObjectPageLocation s b with
  | none => rw [hpl] at h; simp at h
  | some page =>
      rw [hpl] at h
      dsimp only at h
      by_cases hc : ((b : Int) - ((page + s.config.HBlockInfo_.size_ + s.config.PadBytes_ + ptrSize : Nat) : Int)) % (s.FullBlockSize : Int) ≠ 0
      · rw [if_pos hc] at h
        simp only [Outcome.exn.injEq] at h
        exact ⟨h.1.symm, h.2.symm⟩
      · rw [if_neg hc] at h
        simp at h

/-- A normal return of `CheckForBadBoundary` leaves the state unchanged. -/
theorem CheckForBadBoundary_ok (s : OAState) (b : Nat) (v : Unit) (s1 : OAState)
    (h : CheckForBadBoundary s b = .ok v s1) : s1 = s := by
  unfold CheckForBadBoundary at h
  cases hpl : ObjectPageLocation s b with
  | none => rw [hpl] at h; simp at h
  | some page =>
      rw [hpl] at h
      dsimp only at h
      by_cases hc : ((b : Int) - ((page + s.config.HBlockInfo_.size_ + s.config.PadBytes_ + ptrSize : Nat) : Int)) % (s.FullBlockSize : Int) ≠ 0
      · rw [if_pos hc] at h
        simp at h
      · rw [if_neg hc] at h
        simp only [Outcome.ok.injEq] at h
        exact h.2.symm

/-- `AssignHeaderBlockValues` can throw only from external-record creation:
on an exception the header type is External, the call was an allocation, and
the exception is `E_NO_MEMORY`. -/
theorem AssignHeaderBlockValues_exn (s : OAState) (o : Nat) (al : Bool)
    (lb : Option (List Nat)) (e : OAException) (s1 : OAState)
    (h : AssignHeaderBlockValues s o al lb = .exn e s1) :
    s.config.HBlockInfo_.type_ = .hbExternal ∧ al = true ∧ e = .E_NO_MEMORY := by
  unfold AssignHeaderBlockValues at h
  split at h
  · simp at h
  · rename_i htype
    dsimp only at h
    split at h
    · rename_i hal
      refine ⟨htype, hal, ?_⟩
      unfold AllocateExternalHeaderBlock sysNew at h
      split at h
      · simp only [Outcome.exn.injEq] at h
        exact h.1.symm
      · dsimp only at h
        split at h
        · split at h
          · simp only [Outcome.exn.injEq] at h
            exact h.1.symm
          · simp at h
        · simp at h
    · rename_i hal
      unfold FreeExternalHeaderBlock at h
      dsimp only at h
      split at h
      · simp at h
      · simp at h
  · simp at h

end OAModel

namespace OAModel

/-- State at a throw point, defaulting to `dummyState`. -/
def exnStateD {α : Type} : Outcome α → OAState
  | .exn _ s => s
  | _ => dummyState

/-- A normal return of the page step of `Allocate` (page creation when the
free list is empty) preserves the config and all stats except
`PagesInUse_`/`FreeObjects_`. -/
theorem pageStep_ok (s : OAState) (v : Unit) (s2 : OAState)
    (h : (if s.stats.FreeObjects_ = 0 then
            (if s.stats.PagesInUse_ < s.config.MaxPages_ then AllocatePage s
             else Outcome.exn .E_NO_PAGES s)
          else Outcome.ok () s) = .ok v s2) :
    s2.config = s.config ∧ s2.stats.Allocations_ = s.stats.Allocations_
    ∧ s2.stats.ObjectSize_ = s.stats.ObjectSize_
    ∧ s2.stats.ObjectsInUse_ = s.stats.ObjectsInUse_
    ∧ s2.stats.MostObjects_ = s.stats.MostObjects_
    ∧ s2.stats.Deallocations_ = s.stats.Deallocations_ := by
  split at h
  · split at h
    · obtain ⟨hc, hst, -, -, -, -, -, -⟩ := AllocatePage_ok _ _ h
      rw [hc, hst]
      exact ⟨rfl, rfl, rfl, rfl, rfl, rfl⟩
    · simp at h
  · simp only [Outcome.ok.injEq, true_and] at h
    subst h
    exact ⟨rfl, rfl, rfl, rfl, rfl, rfl⟩

/-- A non-passthrough `Allocate` exception is one of: `E_NO_PAGES` with the
state unchanged, an `E_NO_MEMORY` propagated out of `AllocatePage`, or an
`E_NO_MEMORY` out of external-record creation (External header only). -/
theorem Allocate_exn (s : OAState) (lb : Option (List Nat)) (e : OAException) (s1 : OAState)
    (hcpp : s.config.UseCPPMemManager_ = false)
    (h : Allocate s lb = .exn e s1) :
    (e = .E_NO_PAGES ∧ s1 = s)
    ∨ AllocatePage s = .exn e s1
    ∨ (e = .E_NO_MEMORY ∧ s.config.HBlockInfo_.type_ = .hbExternal) := by
  unfold Allocate at h
  rw [hcpp] at h
  simp only [Bool.false_eq_true, if_false] at h
  split at h
  · simp at h
  · rename_i e2 s2 heq
    simp only [Outcome.exn.injEq] at h
    obtain ⟨he, hs⟩ := h
    subst he
    subst hs
    split at heq
    · split at heq
      · right; left; exact heq
      · simp only [Outcome.exn.injEq] at heq
        left
        exact ⟨heq.1.symm, heq.2.symm⟩
    · simp at heq
  · rename_i v s2 heq
    split at h
    · simp at h
    · split at h
      · simp at h
      · rename_i e3 s3 heq3
        simp only [Outcome.exn.injEq] at h
        obtain ⟨he, hs⟩ := h
        subst he
        obtain ⟨ht, -, hm⟩ := AssignHeaderBlockValues_exn _ _ _ _ _ _ heq3
        obtain ⟨hc, -, -, -, -, -⟩ := pageStep_ok _ _ _ heq
        right; right
        constructor
        · exact hm
        · have : ({ s2 with stats := { s2.stats with
              FreeObjects_ := s2.stats.FreeObjects_ - 1,
              Allocations_ := s2.stats.Allocations_ + 1,
              ObjectsInUse_ := s2.stats.ObjectsInUse_ + 1 } } : OAState).config = s2.config := rfl
          rw [this, hc] at ht
          exact ht
      · simp at h

/-- A non-passthrough `Free` exception (`E_MULTIPLE_FREE`, `E_BAD_BOUNDARY`
or `E_CORRUPTED_BLOCK`) leaves the state unchanged: all checks precede every
mutation. -/
theorem Free_exn (s : OAState) (a : Nat) (e : OAException) (s1 : OAState)
    (hcpp : s.config.UseCPPMemManager_ = false)
    (h : Free s a = .exn e s1) : s1 = s := by
  unfold Free at h
  rw [hcpp] at h
  simp only [Bool.false_eq_true, if_false] at h
  split at h
  · simp at h
  · rename_i e2 s2 heq
    simp only [Outcome.exn.injEq] at h
    obtain ⟨he, hs⟩ := h
    subst he
    subst hs
    split at heq
    · split at heq
      · simp only [Outcome.exn.injEq] at heq
        exact heq.2.symm
      · split at heq
        · simp at heq
        · rename_i e3 s3 heq3
          simp only [Outcome.exn.injEq] at heq
          obtain ⟨-, hs3⟩ := heq
          subst hs3
          exact (CheckForBadBoundary_exn _ _ _ _ heq3).2
        · rename_i v3 s3 heq3
          have hs3 : s3 = s := CheckForBadBoundary_ok _ _ _ _ heq3
          subst hs3
          split at heq
          · split at heq
            · simp only [Outcome.exn.injEq] at heq
              exact heq.2.symm
            · simp at heq
          · simp at heq
    · simp at heq
  · rename_i v s2 heq
    split at h
    · simp at h
    · rename_i e3 s3 heq3
      obtain ⟨-, hal, -⟩ := AssignHeaderBlockValues_exn _ _ _ _ _ _ heq3
      exact absurd hal (by simp)
    · simp at h

end OAModel

namespace OAModel

/-- When the free count is zero and the system allocator refuses the next
request, a non-passthrough `Allocate` throws from page creation (`E_NO_MEMORY`)
or from the page-limit check (`E_NO_PAGES`) before any mutation, whatever the
header type: the throw-point state keeps the stats, lists, memory and records
of the pre-call state. -/
theorem Allocate_pagefail (s : OAState) (lb : Option (List Nat)) (e : OAException) (s1 : OAState)
    (hcpp : s.config.UseCPPMemManager_ = false)
    (hfo : s.stats.FreeObjects_ = 0) (hsf : s.sysFail.head? = some true)
    (h : Allocate s lb = .exn e s1) :
    s1.stats = s.stats ∧ s1.FreeList_ = s.FreeList_ ∧ s1.PageList_ = s.PageList_
    ∧ s1.mem = s.mem ∧ s1.records = s.records := by
  unfold Allocate at h
  rw [hcpp] at h
  simp only [Bool.false_eq_true, if_false] at h
  rw [if_pos hfo] at h
  by_cases hpm : s.stats.PagesInUse_ < s.config.MaxPages_
  · rw [if_pos hpm] at h
    have hap : AllocatePage s = .exn .E_NO_MEMORY { s with sysFail := s.sysFail.tail } := by
      unfold AllocatePage sysNew
      cases hsl : s.sysFail with
      | nil =>
          rw [hsl] at hsf
          simp at hsf
      | cons b rest =>
          rw [hsl] at hsf
          simp only [List.head?_cons, Option.some.injEq] at hsf
          subst hsf
          rfl
    rw [hap] at h
    dsimp only at h
    simp only [Outcome.exn.injEq] at h
    obtain ⟨he, hs⟩ := h
    subst hs
    exact ⟨rfl, rfl, rfl, rfl, rfl⟩
  · rw [if_neg hpm] at h
    dsimp only at h
    simp only [Outcome.exn.injEq] at h
    obtain ⟨he, hs⟩ := h
    subst hs
    exact ⟨rfl, rfl, rfl, rfl, rfl⟩

/-- C6 (amended): failing non-passthrough operations are atomic for
`E_NO_PAGES`, `E_BAD_BOUNDARY`, `E_MULTIPLE_FREE`, `E_CORRUPTED_BLOCK`, and
for `E_NO_MEMORY` raised during page creation — for a non-External header
every `E_NO_MEMORY` is such, and for an External header the page-creation
case is the one where the free count is zero and the system allocator refuses
the next request (the page allocation, the first allocation the call makes):
the stats, the free list, the page list, the byte memory and the external
records at the throw point equal those before the call. (`E_NO_MEMORY` thrown
during external-record creation is *not* atomic: Allocate has already updated
the stats — see the counterexample.) -/
theorem C6_error_atomicity (s : OAState) (op : Op) (e : OAException) (s1 : OAState)
    (hcpp : s.config.UseCPPMemManager_ = false)
    (hx : applyOp s op = .exn e s1)
    (hcase : e ≠ .E_NO_MEMORY ∨ s.config.HBlockInfo_.type_ ≠ .hbExternal
      ∨ (s.stats.FreeObjects_ = 0 ∧ s.sysFail.head? = some true)) :
    s1.stats = s.stats ∧ s1.FreeList_ = s.FreeList_ ∧ s1.PageList_ = s.PageList_
    ∧ s1.mem = s.mem ∧ s1.records = s.records := by
  cases op with
  | alloc lb =>
      unfold applyOp at hx
      dsimp only at hx
      split at hx
      · simp at hx
      · rename_i e2 s2 heq
        simp only [Outcome.exn.injEq] at hx
        obtain ⟨he, hs⟩ := hx
        subst he
        subst hs
        rcases Allocate_exn _ _ _ _ hcpp heq with ⟨-, rfl⟩ | hpage | ⟨he, ht⟩
        · exact ⟨rfl, rfl, rfl, rfl, rfl⟩
        · obtain ⟨-, h1, h2, h3, h4, h5⟩ := AllocatePage_exn _ _ _ hpage
          exact ⟨h1, h2, h3, h4, h5⟩
        · subst he
          rcases hcase with hc | hc | ⟨hfo, hsfh⟩
          · exact absurd rfl hc
          · exact absurd ht hc
          · exact Allocate_pagefail _ _ _ _ hcpp hfo hsfh heq
      · simp at hx
  | free a =>
      unfold applyOp at hx
      dsimp only at hx
      split at hx
      · simp at hx
      · rename_i e2 s2 heq
        simp only [Outcome.exn.injEq] at hx
        obtain ⟨he, hs⟩ := hx
        subst he
        subst hs
        have := Free_exn _ _ _ _ hcpp heq
        subst this
        exact ⟨rfl, rfl, rfl, rfl, rfl⟩
      · simp at hx

/-- External-header configuration with room for a second page, for the
atomicity witness. -/
def cfgC6w : OAConfig :=
  { UseCPPMemManager_ := false
    ObjectsPerPage_ := 1
    MaxPages_ := 2
    DebugOn_ := false
    PadBytes_ := 0
    HBlockInfo_ := { type_ := .hbExternal, size_ := 8 } }

/-- An External-header allocator (`cfgC6w`) whose single slot is on loan and
whose system allocator will refuse the next request: the next Allocate
triggers page creation and its page allocation fails with `E_NO_MEMORY`. -/
def c6wState : OAState :=
  okStateD (runOA 8 cfgC6w 1000 0 [false, false, true] [.alloc none])

/-- Witness for `C6_error_atomicity` at a concrete input exercising the
External-header page-creation case: the `E_NO_MEMORY` thrown by the failing
page allocation leaves the allocator state untouched. -/
theorem C6_error_atomicity_witness :
    (exnStateD (applyOp c6wState (.alloc none))).stats = c6wState.stats
    ∧ (exnStateD (applyOp c6wState (.alloc none))).FreeList_ = c6wState.FreeList_
    ∧ (exnStateD (applyOp c6wState (.alloc none))).PageList_ = c6wState.PageList_
    ∧ (exnStateD (applyOp c6wState (.alloc none))).mem = c6wState.mem
    ∧ (exnStateD (applyOp c6wState (.alloc none))).records = c6wState.records :=
  C6_error_atomicity c6wState (.alloc none) .E_NO_MEMORY
    (exnStateD (applyOp c6wState (.alloc none))) rfl rfl
    (Or.inr (Or.inr ⟨by decide, by decide⟩))

end OAModel

namespace OAModel

/-- In passthrough mode a public call never touches the page list or the
config: passthrough Allocate and Free dispatch to the CPP-manager branches. -/
theorem cpp_step_preserves (s : OAState) (op : Op) (v : Option Nat) (s1 : OAState)
    (hcpp : s.config.UseCPPMemManager_ = true)
    (h : applyOp s op = .ok v s1) :
    s1.config = s.config ∧ s1.PageList_ = s.PageList_ := by
  cases op with
  | alloc lb =>
      unfold applyOp Allocate AllocateWithCPPManager sysNew at h
      rw [hcpp] at h
      dsimp only at h
      cases hsf : s.sysFail with
      | nil =>
          rw [hsf] at h
          simp only [if_true, Outcome.ok.injEq] at h
          obtain ⟨-, hs⟩ := h
          subst hs
          exact ⟨rfl, rfl⟩
      | cons b rest =>
          rw [hsf] at h
          cases b with
          | true => simp at h
          | false =>
              simp only [if_true, Outcome.ok.injEq] at h
              obtain ⟨-, hs⟩ := h
              subst hs
              exact ⟨rfl, rfl⟩
  | free a =>
      unfold applyOp Free at h
      rw [hcpp] at h
      simp only [if_true, Outcome.ok.injEq] at h
      obtain ⟨-, hs⟩ := h
      subst hs
      exact ⟨rfl, rfl⟩

end OAModel

namespace OAModel

/-- C5 (amended): in passthrough mode, after any exception-free sequence of
passthrough calls, `ValidatePages` returns 0 (no page is ever created), while
`DumpMemoryInUse` returns the current `ObjectsInUse_` — not necessarily 0. -/
theorem C5_passthrough_traversals (s0 : OAState) (ops : List Op) (r : Option Nat)
    (s1 : OAState)
    (hcpp : s0.config.UseCPPMemManager_ = true)
    (hpl : s0.PageList_ = [])
    (hrun : runOps s0 ops = .ok r s1) :
    (ValidatePages s1).2 = 0 ∧ (DumpMemoryInUse s1).2 = s1.stats.ObjectsInUse_ := by
  induction ops generalizing s0 r with
  | nil =>
      unfold runOps at hrun
      simp only [Outcome.ok.injEq] at hrun
      obtain ⟨-, hs⟩ := hrun
      subst hs
      constructor
      · unfold ValidatePages
        rw [hpl]
        simp
      · unfold DumpMemoryInUse
        rfl
  | cons op rest ih =>
      unfold runOps at hrun
      cases hstep : applyOp s0 op with
      | ok v s2 =>
          rw [hstep] at hrun
          obtain ⟨hc, hp⟩ := cpp_step_preserves s0 op v s2 hcpp hstep
          exact ih s2 r (by rw [hc]; exact hcpp) (by rw [hp]; exact hpl) hrun
      | exn e s2 =>
          rw [hstep] at hrun
          simp at hrun
      | ub =>
          rw [hstep] at hrun
          simp at hrun

/-- Witness for `C5_passthrough_traversals`: the passthrough allocator of
`cfgC5` after one Allocate. -/
theorem C5_passthrough_traversals_witness :
    (ValidatePages (okStateD (runOps (okStateD (mkObjectAllocator 8 cfgC5 1000 0 []))
        [.alloc none]))).2 = 0
    ∧ (DumpMemoryInUse (okStateD (runOps (okStateD (mkObjectAllocator 8 cfgC5 1000 0 []))
        [.alloc none]))).2 =
      (okStateD (runOps (okStateD (mkObjectAllocator 8 cfgC5 1000 0 []))
        [.alloc none])).stats.ObjectsInUse_ :=
  C5_passthrough_traversals (okStateD (mkObjectAllocator 8 cfgC5 1000 0 []))
    [.alloc none] none
    (okStateD (runOps (okStateD (mkObjectAllocator 8 cfgC5 1000 0 [])) [.alloc none]))
    rfl rfl rfl

end OAModel

namespace OAModel

/-- C10: `ObjectPageLocation` uses an inclusive upper bound
(`Object <= page + PageSize_`), so the address exactly `PageSize_` past a
page's start is treated as inside that page; with header None and
`PadBytes_ = 0`, a debug-mode Free of that one-past-end address also passes
the stride-congruence check (the offset from the first object is exactly
`FullBlockSize · ObjectsPerPage_`) and the whole Free succeeds — no
`E_BAD_BOUNDARY` (nor any other exception) is raised. -/
theorem C10_one_past_end_free_ok (s : OAState) (p : Nat)
    (hcpp : s.config.UseCPPMemManager_ = false)
    (hdbg : s.config.DebugOn_ = true)
    (htype : s.config.HBlockInfo_.type_ = .hbNone)
    (hsz : s.config.HBlockInfo_.size_ = 0)
    (hpad : s.config.PadBytes_ = 0)
    (hpl : s.PageList_ = [p])
    (hps : s.stats.PageSize_ = s.FullBlockSize * s.config.ObjectsPerPage_ + ptrSize)
    (hnf : IsObjectInList s.FreeList_ (p + s.stats.PageSize_) = false) :
    ObjectPageLocation s (p + s.stats.PageSize_) = some p
    ∧ ∃ s1, Free s (p + s.stats.PageSize_) = .ok () s1 := by
  have hopl : ObjectPageLocation s (p + s.stats.PageSize_) = some p := by
    unfold ObjectPageLocation
    rw [hpl]
    simp [List.find?]
  refine ⟨hopl, ?_⟩
  have hnum : ((p + s.stats.PageSize_ : Nat) : Int) -
        ((p + s.config.HBlockInfo_.size_ + s.config.PadBytes_ + ptrSize : Nat) : Int) =
      (s.FullBlockSize : Int) * (s.config.ObjectsPerPage_ : Int) := by
    rw [hps, hsz, hpad]
    push_cast
    ring
  have hcond : ¬(((p + s.stats.PageSize_ : Nat) : Int) -
        ((p + s.config.HBlockInfo_.size_ + s.config.PadBytes_ + ptrSize : Nat) : Int)) %
      (s.FullBlockSize : Int) ≠ 0 := by
    rw [hnum]
    simp [Int.mul_emod_right]
  have hcbb : CheckForBadBoundary s (p + s.stats.PageSize_) = .ok () s := by
    unfold CheckForBadBoundary
    rw [hopl]
    dsimp only
    rw [if_neg hcond]
  have hahb : AssignHeaderBlockValues s (p + s.stats.PageSize_) false none = .ok () s := by
    unfold AssignHeaderBlockValues
    rw [htype]
  unfold Free
  rw [hcpp]
  simp only [Bool.false_eq_true, if_false, hdbg, if_true, hnf]
  rw [hcbb]
  dsimp only
  rw [hpad]
  simp only [gt_iff_lt, lt_irrefl, if_false]
  rw [hahb]
  dsimp only
  exact ⟨_, rfl⟩

end OAModel

namespace OAModel

/-- Configuration for the C10 witness: header None, no pads, debug on. -/
def cfgC10 : OAConfig :=
  { UseCPPMemManager_ := false
    ObjectsPerPage_ := 1
    MaxPages_ := 1
    DebugOn_ := true
    PadBytes_ := 0
    HBlockInfo_ := { type_ := .hbNone, size_ := 0 } }

/-- The allocator of `cfgC10` right after construction: one page at 1000 of
16 bytes, free list `[1008]`. -/
def c10State : OAState := okStateD (mkObjectAllocator 8 cfgC10 1000 0 [])

/-- Witness for `C10_one_past_end_free_ok` at the concrete state: the
one-past-end address 1016 is located in the page at 1000 and `Free 1016`
succeeds. -/
theorem C10_one_past_end_free_ok_witness :
    ObjectPageLocation c10State (1000 + c10State.stats.PageSize_) = some 1000
    ∧ ∃ s1, Free c10State (1000 + c10State.stats.PageSize_) = .ok () s1 :=
  C10_one_past_end_free_ok c10State 1000 rfl rfl rfl rfl rfl rfl (by decide) (by decide)

end OAModel

namespace OAModel

/-- The carving loop pushes the slots at stride intervals in ascending
address order, so LIFO order leaves them reversed on the free list. -/
theorem carve_freelist (debug : Bool) (pad hb osz : Nat) :
    ∀ (n p : Nat) (m : Nat → Nat) (fl : List Nat),
      (carve debug pad hb osz n p m fl).2 =
        ((List.range n).map (fun i => p + pad + hb + pad + i * (osz + 2 * pad + hb))).reverse
          ++ fl := by
  intro n
  induction n with
  | zero =>
      intro p m fl
      simp [carve]
  | succ k ih =>
      intro p m fl
      simp only [carve, PushFront]
      rw [ih]
      rw [List.range_succ_eq_map]
      simp only [List.map_cons, List.map_map, List.reverse_cons, List.append_assoc,
        List.singleton_append]
      have hzero : p + pad + hb + pad + 0 * (osz + 2 * pad + hb) = p + pad + hb + pad := by
        ring
      rw [hzero]
      have hfun : (fun i => p + pad + hb + pad + i * (osz + 2 * pad + hb)) ∘ Nat.succ =
          fun i => p + pad + hb + pad + osz + pad + hb + pad + i * (osz + 2 * pad + hb) := by
        funext i
        show p + pad + hb + pad + (i + 1) * (osz + 2 * pad + hb) = _
        ring
      rw [hfun]

end OAModel

namespace OAModel

/-- C4 (amended): immediately after `AllocatePage` carves a new page, the
free list holds the page's slots in descending address order — the head is
the HIGHEST-address slot (slot `N-1`), because the slots are pushed onto the
LIFO list in ascending address order — and the next successful Allocate
returns that highest-address slot. -/
theorem C4_free_list_after_page (s : OAState) (s1 : OAState)
    (hcpp : s.config.UseCPPMemManager_ = false)
    (hN : 1 ≤ s.config.ObjectsPerPage_)
    (h : AllocatePage s = .ok () s1) :
    s1.FreeList_ =
      ((List.range s.config.ObjectsPerPage_).map (fun i =>
        s.nextAddr + s.config.HBlockInfo_.size_ + ptrSize + s.config.PadBytes_ +
          i * (s.stats.ObjectSize_ + 2 * s.config.PadBytes_ + s.config.HBlockInfo_.size_))).reverse
    ∧ s1.FreeList_.head? =
        some (s.nextAddr + s.config.HBlockInfo_.size_ + ptrSize + s.config.PadBytes_ +
          (s.config.ObjectsPerPage_ - 1) *
            (s.stats.ObjectSize_ + 2 * s.config.PadBytes_ + s.config.HBlockInfo_.size_))
    ∧ ∀ lb a s2, Allocate s1 lb = .ok a s2 →
        a = s.nextAddr + s.config.HBlockInfo_.size_ + ptrSize + s.config.PadBytes_ +
          (s.config.ObjectsPerPage_ - 1) *
            (s.stats.ObjectSize_ + 2 * s.config.PadBytes_ + s.config.HBlockInfo_.size_) := by
  obtain ⟨hcfg, hst, -, -, -, hfl, -, -⟩ := AllocatePage_ok _ _ h
  obtain ⟨k, hk⟩ : ∃ k, s.config.ObjectsPerPage_ = k + 1 := ⟨s.config.ObjectsPerPage_ - 1, by omega⟩
  have hfl2 : s1.FreeList_ =
      ((List.range s.config.ObjectsPerPage_).map (fun i =>
        s.nextAddr + s.config.HBlockInfo_.size_ + ptrSize + s.config.PadBytes_ +
          i * (s.stats.ObjectSize_ + 2 * s.config.PadBytes_ + s.config.HBlockInfo_.size_))).reverse := by
    rw [hfl]
    show (carve s.config.DebugOn_ s.config.PadBytes_ s.config.HBlockInfo_.size_
        s.stats.ObjectSize_ (s.config.ObjectsPerPage_ - 1)
        (s.nextAddr + s.config.HBlockInfo_.size_ + ptrSize + s.config.PadBytes_ + s.stats.ObjectSize_)
        _ [s.nextAddr + s.config.HBlockInfo_.size_ + ptrSize + s.config.PadBytes_]).2 = _
    rw [carve_freelist]
    rw [hk]
    simp only [Nat.add_sub_cancel]
    rw [List.range_succ_eq_map]
    simp only [List.map_cons, List.map_map, List.reverse_cons, List.append_assoc,
      List.singleton_append, List.append_nil]
    have hzero : s.nextAddr + s.config.HBlockInfo_.size_ + ptrSize + s.config.PadBytes_ +
        0 * (s.stats.ObjectSize_ + 2 * s.config.PadBytes_ + s.config.HBlockInfo_.size_) =
        s.nextAddr + s.config.HBlockInfo_.size_ + ptrSize + s.config.PadBytes_ := by
      ring
    rw [hzero]
    have hfun : (fun i => s.nextAddr + s.config.HBlockInfo_.size_ + ptrSize + s.config.PadBytes_ +
          i * (s.stats.ObjectSize_ + 2 * s.config.PadBytes_ + s.config.HBlockInfo_.size_)) ∘
            Nat.succ =
        fun i => s.nextAddr + s.config.HBlockInfo_.size_ + ptrSize + s.config.PadBytes_ +
          s.stats.ObjectSize_ + s.config.PadBytes_ + s.config.HBlockInfo_.size_ +
          s.config.PadBytes_ +
          i * (s.stats.ObjectSize_ + 2 * s.config.PadBytes_ + s.config.HBlockInfo_.size_) := by
      funext i
      show s.nextAddr + s.config.HBlockInfo_.size_ + ptrSize + s.config.PadBytes_ +
          (i + 1) * (s.stats.ObjectSize_ + 2 * s.config.PadBytes_ + s.config.HBlockInfo_.size_) = _
      ring
    rw [hfun]
  have hcons : s1.FreeList_ =
      (s.nextAddr + s.config.HBlockInfo_.size_ + ptrSize + s.config.PadBytes_ +
        (s.config.ObjectsPerPage_ - 1) *
          (s.stats.ObjectSize_ + 2 * s.config.PadBytes_ + s.config.HBlockInfo_.size_)) ::
      ((List.range (s.config.ObjectsPerPage_ - 1)).map (fun i =>
        s.nextAddr + s.config.HBlockInfo_.size_ + ptrSize + s.config.PadBytes_ +
          i * (s.stats.ObjectSize_ + 2 * s.config.PadBytes_ + s.config.HBlockInfo_.size_))).reverse := by
    rw [hfl2, hk]
    simp only [Nat.add_sub_cancel]
    rw [List.range_succ]
    simp only [List.map_append, List.map_cons, List.map_nil, List.reverse_append,
      List.reverse_cons, List.reverse_nil, List.nil_append, List.singleton_append]
  refine ⟨hfl2, by rw [hcons]; rfl, ?_⟩
  intro lb a s2 hA
  unfold Allocate at hA
  have hcpp1 : s1.config.UseCPPMemManager_ = false := by rw [hcfg]; exact hcpp
  rw [hcpp1] at hA
  simp only [Bool.false_eq_true, if_false] at hA
  have hfree : ¬(s1.stats.FreeObjects_ = 0) := by
    rw [hst]
    show ¬(s.stats.FreeObjects_ + s.config.ObjectsPerPage_ = 0)
    omega
  rw [if_neg hfree] at hA
  dsimp only at hA
  rw [hcons] at hA
  dsimp only at hA
  split at hA
  · simp at hA
  · simp at hA
  · simp only [Outcome.ok.injEq] at hA
    exact hA.1.symm

end OAModel

namespace OAModel

/-- The pre-page state of a `cfgC4` allocator (two slots, no pads/header):
the constructor state just before its `AllocatePage` call. -/
def c4PreState : OAState :=
  { config := cfgC4
    stats := { ObjectSize_ := 8, PageSize_ := 24 }
    FullBlockSize := 8
    FreeList_ := []
    PageList_ := []
    mem := fun _ => 0
    records := []
    nextAddr := 1000
    sysFail := [] }

/-- Witness for `C4_free_list_after_page`: after carving the page at 1000,
the free-list head is the highest-address slot. -/
theorem C4_free_list_after_page_witness :
    (okStateD (AllocatePage c4PreState)).FreeList_.head? =
      some (c4PreState.nextAddr + c4PreState.config.HBlockInfo_.size_ + ptrSize +
        c4PreState.config.PadBytes_ + (c4PreState.config.ObjectsPerPage_ - 1) *
          (c4PreState.stats.ObjectSize_ + 2 * c4PreState.config.PadBytes_ +
            c4PreState.config.HBlockInfo_.size_)) :=
  (C4_free_list_after_page c4PreState (okStateD (AllocatePage c4PreState)) rfl (by decide)
    rfl).2.1

end OAModel

namespace OAModel

/-- The carving loop never writes below `p + padBytes`. -/
theorem carve_mem_lower (debug : Bool) (pad hb osz : Nat) :
    ∀ (n p : Nat) (m : Nat → Nat) (fl : List Nat) (x : Nat), x < p + pad →
      (carve debug pad hb osz n p m fl).1 x = m x := by
  intro n
  induction n with
  | zero => intro p m fl x _; rfl
  | succ k ih =>
      intro p m fl x hx
      simp only [carve, PushFront]
      rw [ih (p + pad + hb + pad + osz) _ _ x (by omega)]
      cases debug with
      | false =>
          simp only [Bool.false_eq_true, if_false]
          rw [memsetB_lt _ _ _ _ _ (by omega)]
      | true =>
          simp only [if_true]
          rw [memsetB_lt _ _ _ _ _ (by omega), memsetB_lt _ _ _ _ _ (by omega),
            memsetB_lt _ _ _ _ _ (by omega), memsetB_lt _ _ _ _ _ (by omega)]

/-- With debug on, after carving `n` slots starting at `p` (the start of the
previous slot's right pad), every pad byte of every carved slot holds
`PAD_PATTERN`. Slot `i` of the loop has its header at `p + pad + i·stride`,
left pad at `p + pad + hb + i·stride` and right pad at
`p + pad + hb + pad + osz + i·stride`. -/
theorem carve_mem_pads (pad hb osz : Nat) :
    ∀ (n p : Nat) (m : Nat → Nat) (fl : List Nat) (i j : Nat), i < n → j < pad →
      (carve true pad hb osz n p m fl).1
          (p + pad + hb + i * (osz + 2 * pad + hb) + j) = PAD_PATTERN
      ∧ (carve true pad hb osz n p m fl).1
          (p + pad + hb + pad + osz + i * (osz + 2 * pad + hb) + j) = PAD_PATTERN := by
  intro n
  induction n with
  | zero => intro p m fl i j hi _; exact absurd hi (by omega)
  | succ k ih =>
      intro p m fl i j hi hj
      simp only [carve, PushFront, if_true]
      cases i with
      | zero =>
          constructor
          · have e : p + pad + hb + 0 * (osz + 2 * pad + hb) + j = p + pad + hb + j := by ring
            rw [e, carve_mem_lower true pad hb osz k _ _ _ _ (by omega)]
            rw [memsetB_lt _ _ _ _ _ (by omega), memsetB_lt _ _ _ _ _ (by omega)]
            exact memsetB_in _ _ _ _ _ (by omega)
          · have e : p + pad + hb + pad + osz + 0 * (osz + 2 * pad + hb) + j =
                p + pad + hb + pad + osz + j := by ring
            rw [e, carve_mem_lower true pad hb osz k _ _ _ _ (by omega)]
            exact memsetB_in _ _ _ _ _ (by omega)
      | succ i' =>
          have hik : i' < k := by omega
          constructor
          · have e : p + pad + hb + (i' + 1) * (osz + 2 * pad + hb) + j =
                p + pad + hb + pad + osz + pad + hb + i' * (osz + 2 * pad + hb) + j := by
              ring
            rw [e]
            exact (ih _ _ _ i' j hik hj).1
          · have e : p + pad + hb + pad + osz + (i' + 1) * (osz + 2 * pad + hb) + j =
                p + pad + hb + pad + osz + pad + hb + pad + osz +
                  i' * (osz + 2 * pad + hb) + j := by
              ring
            rw [e]
            exact (ih _ _ _ i' j hik hj).2

end OAModel

namespace OAModel

/-- C3 (amended): when debug is on, `AllocatePage` fills both pad regions of
every slot of the new page (at `s.nextAddr`) with `PAD_PATTERN`: slot `i` has
its left pad at `page + size_ + 8 + i·stride` and its right pad at
`page + size_ + 8 + pad + osz + i·stride`. (With debug off no pad byte is
written — see the counterexample.) -/
theorem C3_pads_written_when_debug_on (s s1 : OAState)
    (hdbg : s.config.DebugOn_ = true)
    (h : AllocatePage s = .ok () s1)
    (i j : Nat) (hi : i < s.config.ObjectsPerPage_) (hj : j < s.config.PadBytes_) :
    s1.mem (s.nextAddr + s.config.HBlockInfo_.size_ + ptrSize +
        i * (s.stats.ObjectSize_ + 2 * s.config.PadBytes_ + s.config.HBlockInfo_.size_) + j)
      = PAD_PATTERN
    ∧ s1.mem (s.nextAddr + s.config.HBlockInfo_.size_ + ptrSize + s.config.PadBytes_ +
        s.stats.ObjectSize_ +
        i * (s.stats.ObjectSize_ + 2 * s.config.PadBytes_ + s.config.HBlockInfo_.size_) + j)
      = PAD_PATTERN := by
  obtain ⟨-, -, -, -, hmem, -, -, -⟩ := AllocatePage_ok _ _ h
  rw [hmem]
  simp only [pageCarve, hdbg, if_true]
  cases i with
  | zero =>
      constructor
      · have e : s.nextAddr + s.config.HBlockInfo_.size_ + ptrSize +
            0 * (s.stats.ObjectSize_ + 2 * s.config.PadBytes_ + s.config.HBlockInfo_.size_) + j =
            s.nextAddr + s.config.HBlockInfo_.size_ + ptrSize + j := by ring
        rw [e, carve_mem_lower _ _ _ _ _ _ _ _ _ (by omega)]
        rw [memsetB_lt _ _ _ _ _ (by omega), memsetB_lt _ _ _ _ _ (by omega)]
        exact memsetB_in _ _ _ _ _ (by omega)
      · have e : s.nextAddr + s.config.HBlockInfo_.size_ + ptrSize + s.config.PadBytes_ +
            s.stats.ObjectSize_ +
            0 * (s.stats.ObjectSize_ + 2 * s.config.PadBytes_ + s.config.HBlockInfo_.size_) + j =
            s.nextAddr + s.config.HBlockInfo_.size_ + ptrSize + s.config.PadBytes_ +
              s.stats.ObjectSize_ + j := by ring
        rw [e, carve_mem_lower _ _ _ _ _ _ _ _ _ (by omega)]
        exact memsetB_in _ _ _ _ _ (by omega)
  | succ i' =>
      have hik : i' < s.config.ObjectsPerPage_ - 1 := by omega
      constructor
      · have e : s.nextAddr + s.config.HBlockInfo_.size_ + ptrSize +
            (i' + 1) * (s.stats.ObjectSize_ + 2 * s.config.PadBytes_ + s.config.HBlockInfo_.size_)
              + j =
            s.nextAddr + s.config.HBlockInfo_.size_ + ptrSize + s.config.PadBytes_ +
              s.stats.ObjectSize_ + s.config.PadBytes_ + s.config.HBlockInfo_.size_ +
              i' * (s.stats.ObjectSize_ + 2 * s.config.PadBytes_ + s.config.HBlockInfo_.size_)
              + j := by ring
        rw [e]
        exact (carve_mem_pads _ _ _ _ _ _ _ i' j hik hj).1
      · have e : s.nextAddr + s.config.HBlockInfo_.size_ + ptrSize + s.config.PadBytes_ +
            s.stats.ObjectSize_ +
            (i' + 1) * (s.stats.ObjectSize_ + 2 * s.config.PadBytes_ + s.config.HBlockInfo_.size_)
              + j =
            s.nextAddr + s.config.HBlockInfo_.size_ + ptrSize + s.config.PadBytes_ +
              s.stats.ObjectSize_ + s.config.PadBytes_ + s.config.HBlockInfo_.size_ +
              s.config.PadBytes_ + s.stats.ObjectSize_ +
              i' * (s.stats.ObjectSize_ + 2 * s.config.PadBytes_ + s.config.HBlockInfo_.size_)
              + j := by ring
        rw [e]
        exact (carve_mem_pads _ _ _ _ _ _ _ i' j hik hj).2

end OAModel

namespace OAModel

/-- A pre-page state with debug on, one pad byte, two slots per page. -/
def c3PreState : OAState :=
  { config := { UseCPPMemManager_ := false
                ObjectsPerPage_ := 2
                MaxPages_ := 1
                DebugOn_ := true
                PadBytes_ := 1
                HBlockInfo_ := { type_ := .hbNone, size_ := 0 } }
    stats := { ObjectSize_ := 8, PageSize_ := 28 }
    FullBlockSize := 10
    FreeList_ := []
    PageList_ := []
    mem := fun _ => 0
    records := []
    nextAddr := 1000
    sysFail := [] }

/-- Witness for `C3_pads_written_when_debug_on` at slot 1, pad byte 0 of the
page carved at 1000. -/
theorem C3_pads_written_when_debug_on_witness :
    (okStateD (AllocatePage c3PreState)).mem
        (c3PreState.nextAddr + c3PreState.config.HBlockInfo_.size_ + ptrSize +
          1 * (c3PreState.stats.ObjectSize_ + 2 * c3PreState.config.PadBytes_ +
            c3PreState.config.HBlockInfo_.size_) + 0) = PAD_PATTERN
    ∧ (okStateD (AllocatePage c3PreState)).mem
        (c3PreState.nextAddr + c3PreState.config.HBlockInfo_.size_ + ptrSize +
          c3PreState.config.PadBytes_ + c3PreState.stats.ObjectSize_ +
          1 * (c3PreState.stats.ObjectSize_ + 2 * c3PreState.config.PadBytes_ +
            c3PreState.config.HBlockInfo_.size_) + 0) = PAD_PATTERN :=
  C3_pads_written_when_debug_on c3PreState (okStateD (AllocatePage c3PreState)) rfl rfl
    1 0 (by decide) (by decide)

end OAModel

namespace OAModel

/-- The debug check chain of `Free` never modifies the state on a normal
return. -/
theorem freeChecks_ok (s : OAState) (a : Nat) (v : Unit) (s2 : OAState)
    (h : (if s.config.DebugOn_ then
            (if IsObjectInList s.FreeList_ a then Outcome.exn .E_MULTIPLE_FREE s
             else match CheckForBadBoundary s a with
               | .ub => Outcome.ub
               | .exn e s1 => Outcome.exn e s1
               | .ok _ s1 =>
                   if s1.config.PadBytes_ > 0 then
                     (if CheckForPaddingCorruption s1 a then Outcome.exn .E_CORRUPTED_BLOCK s1
                      else Outcome.ok () s1)
                   else Outcome.ok () s1)
          else Outcome.ok () s) = .ok v s2) : s2 = s := by
  split at h
  · split at h
    · simp at h
    · split at h
      · simp at h
      · simp at h
      · rename_i v3 s3 heq3
        have hs3 : s3 = s := CheckForBadBoundary_ok _ _ _ _ heq3
        subst hs3
        split at h
        · split at h
          · simp at h
          · simp only [Outcome.ok.injEq] at h
            exact h.2.symm
        · simp only [Outcome.ok.injEq] at h
          exact h.2.symm
  · simp only [Outcome.ok.injEq] at h
    exact h.2.symm

/-- Reducing a byte modulo 256 does not change its low bit. -/
theorem testBit0_mod256 (w : Nat) : (w % 256).testBit 0 = w.testBit 0 := by
  have h : (256 : Nat) = 2 ^ 8 := by norm_num
  rw [h, Nat.testBit_mod_two_pow]
  simp

/-- `|= 1` sets bit 0. -/
theorem testBit0_or1 (y : Nat) : (y ||| 1).testBit 0 = true := by
  rw [Nat.testBit_lor]
  have h1 : (1 : Nat).testBit 0 = true := by decide
  rw [h1, Bool.or_true]

/-- `&= ~1` clears bit 0. -/
theorem testBit0_and254 (y : Nat) : (y &&& 254).testBit 0 = false := by
  rw [Nat.testBit_land]
  have h1 : (254 : Nat).testBit 0 = false := by decide
  rw [h1, Bool.and_false]

end OAModel

namespace OAModel

/-- With a Basic header, allocation writes the flag byte (bit 0 set via
`|= 1`) at `object - PadBytes_ - 1` and the current `Allocations_` as a
4-byte little-endian integer right below it; nothing else changes. -/
theorem AssignHeaderBlockValues_basic_alloc (s : OAState) (o : Nat) (lb : Option (List Nat))
    (u : Unit) (s3 : OAState)
    (htype : s.config.HBlockInfo_.type_ = .hbBasic)
    (h : AssignHeaderBlockValues s o true lb = .ok u s3) :
    s3.stats = s.stats ∧ s3.config = s.config ∧ s3.FreeList_ = s.FreeList_
    ∧ s3.PageList_ = s.PageList_
    ∧ s3.mem = writeLE (writeByte s.mem (o - s.config.PadBytes_ - 1)
        ((s.mem (o - s.config.PadBytes_ - 1)) ||| 1))
      (o - s.config.PadBytes_ - 1 - 4) 4 s.stats.Allocations_ := by
  unfold AssignHeaderBlockValues at h
  rw [htype] at h
  dsimp only at h
  have hne : (HBType.hbBasic = HBType.hbExtended) = False := by simp
  simp only [hne, if_false, eq_self_iff_true, if_true] at h
  simp only [Outcome.ok.injEq] at h
  obtain ⟨-, hs⟩ := h
  subst hs
  exact ⟨rfl, rfl, rfl, rfl, rfl⟩

/-- With a Basic header, freeing clears the flag's bit 0 (`&= ~1`) and zeroes
the 4 allocation-number bytes; nothing else changes. -/
theorem AssignHeaderBlockValues_basic_free (s : OAState) (o : Nat) (lb : Option (List Nat))
    (u : Unit) (s3 : OAState)
    (htype : s.config.HBlockInfo_.type_ = .hbBasic)
    (h : AssignHeaderBlockValues s o false lb = .ok u s3) :
    s3.stats = s.stats ∧ s3.config = s.config ∧ s3.FreeList_ = s.FreeList_
    ∧ s3.PageList_ = s.PageList_
    ∧ s3.mem = writeLE (writeByte s.mem (o - s.config.PadBytes_ - 1)
        ((s.mem (o - s.config.PadBytes_ - 1)) &&& 254))
      (o - s.config.PadBytes_ - 1 - 4) 4 0 := by
  unfold AssignHeaderBlockValues at h
  rw [htype] at h
  dsimp only at h
  have hne : (HBType.hbBasic = HBType.hbExtended) = False := by simp
  have hne2 : (false = true) = False := by simp
  simp only [hne, hne2, if_false] at h
  simp only [Outcome.ok.injEq] at h
  obtain ⟨-, hs⟩ := h
  subst hs
  exact ⟨rfl, rfl, rfl, rfl, rfl⟩

end OAModel

namespace OAModel

/-- C9: with a Basic header, after the k-th total Allocate returns `addr`
(`k = Allocations_` after the call, one more than before it: counters are
incremented before the header is written), the 4-byte little-endian integer
at `addr - PadBytes_ - 5` equals `k` and the flag byte at
`addr - PadBytes_ - 1` has bit 0 set; after `Free addr` that integer is 0
and the flag's bit 0 is clear. -/
theorem C9_basic_header_protocol (s : OAState) (label : Option (List Nat)) (addr : Nat)
    (s' : OAState)
    (hcpp : s.config.UseCPPMemManager_ = false)
    (htype : s.config.HBlockInfo_.type_ = .hbBasic)
    (hlow : s.config.PadBytes_ + 5 ≤ addr)
    (hbound : s.stats.Allocations_ + 1 < 2 ^ 32)
    (hA : Allocate s label = .ok addr s') :
    s'.stats.Allocations_ = s.stats.Allocations_ + 1
    ∧ readLE s'.mem (addr - s.config.PadBytes_ - 5) 4 = s'.stats.Allocations_
    ∧ (s'.mem (addr - s.config.PadBytes_ - 1)).testBit 0 = true
    ∧ ∀ (r : Unit) (s'' : OAState), Free s' addr = .ok r s'' →
        readLE s''.mem (addr - s.config.PadBytes_ - 5) 4 = 0
        ∧ (s''.mem (addr - s.config.PadBytes_ - 1)).testBit 0 = false := by
  unfold Allocate at hA
  rw [hcpp] at hA
  simp only [Bool.false_eq_true, if_false] at hA
  split at hA
  · simp at hA
  · simp at hA
  · rename_i v s1 heq
    obtain ⟨hcfg1, hAl1, -, -, -, -⟩ := pageStep_ok _ _ _ heq
    split at hA
    · simp at hA
    · rename_i availableBlock rest hfl
      split at hA
      · simp at hA
      · simp at hA
      · rename_i u s3 heq3
        have htype2 : s1.config.HBlockInfo_.type_ = HBType.hbBasic := by
          rw [hcfg1]; exact htype
        obtain ⟨hst3, hcfg3, -, -, hmem3⟩ :=
          AssignHeaderBlockValues_basic_alloc _ _ label u s3 (by exact htype2) heq3
        simp only [Outcome.ok.injEq] at hA
        obtain ⟨hv, hs'⟩ := hA
        subst hv
        dsimp only at hst3 hcfg3 hmem3
        have hpad1 : s1.config.PadBytes_ = s.config.PadBytes_ := by rw [hcfg1]
        have hmem1 : s1.mem = s.mem ∨ True := Or.inr trivial
        rw [hpad1] at hmem3
        have hstats3 : s3.stats.Allocations_ = s.stats.Allocations_ + 1 := by
          rw [hst3]
          dsimp only
          rw [hAl1]
        have hcfg3s : s3.config = s.config := by rw [hcfg3, hcfg1]
        have hstats' : s'.stats.Allocations_ = s.stats.Allocations_ + 1 := by
          rw [← hs']
          split
          · split
            · exact hstats3
            · exact hstats3
          · split
            · exact hstats3
            · exact hstats3
        have hcfg' : s'.config = s.config := by
          rw [← hs']
          split
          · split
            · exact hcfg3s
            · exact hcfg3s
          · split
            · exact hcfg3s
            · exact hcfg3s
        have hmemlt : ∀ x, x < availableBlock → s'.mem x = s3.mem x := by
          rw [← hs']
          intro x hx
          split
          all_goals split
          all_goals
            first
              | exact memsetB_lt _ _ _ _ _ hx
              | rfl
        have hA5 : availableBlock - s.config.PadBytes_ - 5 =
            availableBlock - s.config.PadBytes_ - 1 - 4 := by omega
        have hread : readLE s'.mem (availableBlock - s.config.PadBytes_ - 5) 4 =
            s.stats.Allocations_ + 1 := by
          rw [readLE_congr s'.mem s3.mem _ 4 (fun i hi => hmemlt _ (by omega))]
          rw [hmem3, hA5, readLE_writeLE]
          have h256 : (256 : Nat) ^ 4 = 2 ^ 32 := by norm_num
          rw [h256]
          have hs1A : s1.stats.Allocations_ + 1 = s.stats.Allocations_ + 1 := by rw [hAl1]
          rw [hs1A, Nat.mod_eq_of_lt hbound]
        have hflag : (s'.mem (availableBlock - s.config.PadBytes_ - 1)).testBit 0 = true := by
          rw [hmemlt _ (by omega), hmem3]
          rw [writeLE_out _ _ _ _ _ (Or.inr (by omega))]
          unfold writeByte
          simp only [eq_self_iff_true, if_true]
          rw [testBit0_mod256, testBit0_or1]
        refine ⟨hstats', by rw [hread, hstats'], hflag, ?_⟩
        intro r s'' hF
        unfold Free at hF
        have hcpp' : s'.config.UseCPPMemManager_ = false := by rw [hcfg']; exact hcpp
        rw [hcpp'] at hF
        simp only [Bool.false_eq_true, if_false] at hF
        split at hF
        · simp at hF
        · simp at hF
        · rename_i v2 s2f heqc
          have hs2f : s2f = s' := freeChecks_ok _ _ _ _ heqc
          rw [hs2f] at hF
          split at hF
          · simp at hF
          · simp at hF
          · rename_i u2 s3f heq3f
            have htype' : s'.config.HBlockInfo_.type_ = HBType.hbBasic := by
              rw [hcfg']; exact htype
            obtain ⟨-, -, -, -, hmem3f⟩ :=
              AssignHeaderBlockValues_basic_free _ _ none u2 s3f htype' heq3f
            rw [hcfg'] at hmem3f
            simp only [Outcome.ok.injEq] at hF
            obtain ⟨-, hs''⟩ := hF
            have hmemlt2 : ∀ x, x < availableBlock → s''.mem x = s3f.mem x := by
              rw [← hs'']
              intro x hx
              split
              · exact memsetB_lt _ _ _ _ _ hx
              · rfl
            constructor
            · rw [readLE_congr s''.mem s3f.mem _ 4 (fun i hi => hmemlt2 _ (by omega))]
              rw [hmem3f, hA5, readLE_writeLE]
              exact Nat.zero_mod _
            · rw [hmemlt2 _ (by omega), hmem3f]
              rw [writeLE_out _ _ _ _ _ (Or.inr (by omega))]
              unfold writeByte
              simp only [eq_self_iff_true, if_true]
              rw [testBit0_mod256, testBit0_and254]

end OAModel

namespace OAModel

/-- Configuration for the C9 witness: Basic header (8 bytes), two pad bytes,
debug on, one slot per page. -/
def cfgC9 : OAConfig :=
  { UseCPPMemManager_ := false
    ObjectsPerPage_ := 1
    MaxPages_ := 1
    DebugOn_ := true
    PadBytes_ := 2
    HBlockInfo_ := { type_ := .hbBasic, size_ := 8 } }

/-- The freshly constructed `cfgC9` allocator (page at 1000, object at 1018). -/
def c9State : OAState := okStateD (mkObjectAllocator 8 cfgC9 1000 0 [])

/-- Witness for `C9_basic_header_protocol`: the first Allocate returns 1018;
the allocation number at 1011 reads 1 with flag bit 0 set, and after
`Free 1018` it reads 0 with flag bit 0 clear. -/
theorem C9_basic_header_protocol_witness :
    readLE (okStateD (Allocate c9State none)).mem (1018 - c9State.config.PadBytes_ - 5) 4 =
      (okStateD (Allocate c9State none)).stats.Allocations_
    ∧ ((okStateD (Allocate c9State none)).mem (1018 - c9State.config.PadBytes_ - 1)).testBit 0
        = true
    ∧ readLE (okStateD (Free (okStateD (Allocate c9State none)) 1018)).mem
        (1018 - c9State.config.PadBytes_ - 5) 4 = 0
    ∧ ((okStateD (Free (okStateD (Allocate c9State none)) 1018)).mem
        (1018 - c9State.config.PadBytes_ - 1)).testBit 0 = false :=
  have T := C9_basic_header_protocol c9State none 1018 (okStateD (Allocate c9State none))
    rfl rfl (by decide) (by decide) rfl
  have F := T.2.2.2 () (okStateD (Free (okStateD (Allocate c9State none)) 1018)) rfl
  ⟨T.2.1, T.2.2.1, F.1, F.2⟩

end OAModel

namespace OAModel

/-- A call sequence is well formed when every call returns normally and every
`Free` targets a currently loaned address (returned by a previous Allocate
and not freed since) — the usage contract of the allocator. -/
def WF : OAState → List Nat → List Op → Prop
  | _, _, [] => True
  | s, loaned, .alloc lbl :: ops =>
      match Allocate s lbl with
      | .ok a s1 => WF s1 (a :: loaned) ops
      | _ => False
  | s, loaned, .free a :: ops =>
      a ∈ loaned ∧
      match Free s a with
      | .ok _ s1 => WF s1 (loaned.erase a) ops
      | _ => False

/-- The page step of `Allocate` either does nothing (free list non-empty) or
adds one page and `ObjectsPerPage_` free objects. -/
theorem pageStep_ok_stats (s : OAState) (v : Unit) (s2 : OAState)
    (h : (if s.stats.FreeObjects_ = 0 then
            (if s.stats.PagesInUse_ < s.config.MaxPages_ then AllocatePage s
             else Outcome.exn .E_NO_PAGES s)
          else Outcome.ok () s) = .ok v s2) :
    s2.config = s.config ∧ s2.stats.ObjectsInUse_ = s.stats.ObjectsInUse_
    ∧ s2.stats.Allocations_ = s.stats.Allocations_
    ∧ ((s2.stats.FreeObjects_ = s.stats.FreeObjects_
        ∧ s2.stats.PagesInUse_ = s.stats.PagesInUse_ ∧ s.stats.FreeObjects_ ≠ 0)
      ∨ (s.stats.FreeObjects_ = 0 ∧ s2.stats.FreeObjects_ = s.config.ObjectsPerPage_
        ∧ s2.stats.PagesInUse_ = s.stats.PagesInUse_ + 1
        ∧ s.stats.PagesInUse_ < s.config.MaxPages_)) := by
  split at h
  · rename_i hfree
    split at h
    · rename_i hpages
      obtain ⟨hc, hst, -, -, -, -, -⟩ := AllocatePage_ok _ _ h
      rw [hc, hst]
      refine ⟨rfl, rfl, rfl, Or.inr ⟨hfree, ?_, rfl, hpages⟩⟩
      show s.stats.FreeObjects_ + s.config.ObjectsPerPage_ = s.config.ObjectsPerPage_
      omega
    · simp at h
  · rename_i hfree
    simp only [Outcome.ok.injEq, true_and] at h
    subst h
    exact ⟨rfl, rfl, rfl, Or.inl ⟨rfl, rfl, hfree⟩⟩

/-- A normal return of the header engine never changes the stats, the
config, the free list or the page list. -/
theorem AssignHeaderBlockValues_ok_core (s : OAState) (o : Nat) (al : Bool)
    (lb : Option (List Nat)) (u : Unit) (s3 : OAState)
    (h : AssignHeaderBlockValues s o al lb = .ok u s3) :
    s3.stats = s.stats ∧ s3.config = s.config ∧ s3.FreeList_ = s.FreeList_
    ∧ s3.PageList_ = s.PageList_ := by
  unfold AssignHeaderBlockValues at h
  split at h
  · simp only [Outcome.ok.injEq, true_and] at h
    subst h
    exact ⟨rfl, rfl, rfl, rfl⟩
  · dsimp only at h
    split at h
    · unfold AllocateExternalHeaderBlock sysNew at h
      cases hsf : s.sysFail with
      | nil =>
          rw [hsf] at h
          dsimp only at h
          cases lb with
          | none =>
              dsimp only at h
              simp only [Outcome.ok.injEq, true_and] at h
              subst h
              exact ⟨rfl, rfl, rfl, rfl⟩
          | some l =>
              dsimp only at h
              simp only [Outcome.ok.injEq, true_and] at h
              subst h
              exact ⟨rfl, rfl, rfl, rfl⟩
      | cons b rest =>
          rw [hsf] at h
          cases b with
          | true => simp at h
          | false =>
              dsimp only at h
              cases lb with
              | none =>
                  dsimp only at h
                  simp only [Outcome.ok.injEq, true_and] at h
                  subst h
                  exact ⟨rfl, rfl, rfl, rfl⟩
              | some l =>
                  dsimp only at h
                  cases hr : rest with
                  | nil =>
                      rw [hr] at h
                      dsimp only at h
                      simp only [Outcome.ok.injEq, true_and] at h
                      subst h
                      exact ⟨rfl, rfl, rfl, rfl⟩
                  | cons b2 r2 =>
                      rw [hr] at h
                      cases b2 with
                      | true => simp at h
                      | false =>
                          dsimp only at h
                          simp only [Outcome.ok.injEq, true_and] at h
                          subst h
                          exact ⟨rfl, rfl, rfl, rfl⟩
    · unfold FreeExternalHeaderBlock at h
      dsimp only at h
      split at h
      · simp at h
      · simp only [Outcome.ok.injEq, true_and] at h
        subst h
        exact ⟨rfl, rfl, rfl, rfl⟩
  · simp only [Outcome.ok.injEq, true_and] at h
    subst h
    exact ⟨rfl, rfl, rfl, rfl⟩

end OAModel

namespace OAModel

/-- Stats effect of a successful non-passthrough `Allocate`: `ObjectsInUse_`
and `Allocations_` go up by one, and either the free list was non-empty
(`FreeObjects_` goes down by one, no new page) or a page was created first
(`FreeObjects_` becomes `ObjectsPerPage_ - 1`, `PagesInUse_` goes up). -/
theorem Allocate_ok_stats (s : OAState) (lb : Option (List Nat)) (a : Nat) (s1 : OAState)
    (hcpp : s.config.UseCPPMemManager_ = false)
    (h : Allocate s lb = .ok a s1) :
    s1.config = s.config
    ∧ s1.stats.ObjectsInUse_ = s.stats.ObjectsInUse_ + 1
    ∧ s1.stats.Allocations_ = s.stats.Allocations_ + 1
    ∧ ((s1.stats.FreeObjects_ = s.stats.FreeObjects_ - 1
        ∧ s1.stats.PagesInUse_ = s.stats.PagesInUse_ ∧ s.stats.FreeObjects_ ≠ 0)
      ∨ (s.stats.FreeObjects_ = 0 ∧ s1.stats.FreeObjects_ = s.config.ObjectsPerPage_ - 1
        ∧ s1.stats.PagesInUse_ = s.stats.PagesInUse_ + 1
        ∧ s.stats.PagesInUse_ < s.config.MaxPages_)) := by
  unfold Allocate at h
  rw [hcpp] at h
  simp only [Bool.false_eq_true, if_false] at h
  split at h
  · simp at h
  · simp at h
  · rename_i v s2 heq
    obtain ⟨hc2, hIn2, hAl2, hdisj⟩ := pageStep_ok_stats _ _ _ heq
    split at h
    · simp at h
    · rename_i blk rest hfl
      split at h
      · simp at h
      · simp at h
      · rename_i u s3 heq3
        obtain ⟨hst3, hcfg3, -, -⟩ := AssignHeaderBlockValues_ok_core _ _ _ _ _ _ heq3
        dsimp only at hst3 hcfg3
        simp only [Outcome.ok.injEq] at h
        obtain ⟨-, hs1⟩ := h
        have hcfgF : s1.config = s3.config := by
          rw [← hs1]; split <;> split <;> rfl
        have hInF : s1.stats.ObjectsInUse_ = s3.stats.ObjectsInUse_ := by
          rw [← hs1]; split <;> split <;> rfl
        have hAlF : s1.stats.Allocations_ = s3.stats.Allocations_ := by
          rw [← hs1]; split <;> split <;> rfl
        have hFrF : s1.stats.FreeObjects_ = s3.stats.FreeObjects_ := by
          rw [← hs1]; split <;> split <;> rfl
        have hPgF : s1.stats.PagesInUse_ = s3.stats.PagesInUse_ := by
          rw [← hs1]; split <;> split <;> rfl
        rw [hst3] at hInF hAlF hFrF hPgF
        dsimp only at hInF hAlF hFrF hPgF
        refine ⟨by rw [hcfgF, hcfg3, hc2], by omega, by omega, ?_⟩
        rcases hdisj with ⟨hf, hp, hne⟩ | ⟨hf0, hfN, hp, hlt⟩
        · exact Or.inl ⟨by omega, by omega, hne⟩
        · exact Or.inr ⟨hf0, by omega, by omega, hlt⟩

/-- Stats effect of a successful non-passthrough `Free`: `FreeObjects_` and
`Deallocations_` go up by one, `ObjectsInUse_` goes down by one. -/
theorem Free_ok_stats (s : OAState) (a : Nat) (r : Unit) (s1 : OAState)
    (hcpp : s.config.UseCPPMemManager_ = false)
    (h : Free s a = .ok r s1) :
    s1.config = s.config
    ∧ s1.stats.ObjectsInUse_ = s.stats.ObjectsInUse_ - 1
    ∧ s1.stats.FreeObjects_ = s.stats.FreeObjects_ + 1
    ∧ s1.stats.PagesInUse_ = s.stats.PagesInUse_
    ∧ s1.stats.Deallocations_ = s.stats.Deallocations_ + 1 := by
  unfold Free at h
  rw [hcpp] at h
  simp only [Bool.false_eq_true, if_false] at h
  split at h
  · simp at h
  · simp at h
  · rename_i v s2 heq
    have hs2 : s2 = s := freeChecks_ok _ _ _ _ heq
    subst hs2
    split at h
    · simp at h
    · simp at h
    · rename_i u s3 heq3
      obtain ⟨hst3, hcfg3, -, -⟩ := AssignHeaderBlockValues_ok_core _ _ _ _ _ _ heq3
      simp only [Outcome.ok.injEq] at h
      obtain ⟨-, hs1⟩ := h
      have hcfgF : s1.config = s3.config := by
        rw [← hs1]; split <;> rfl
      have hInF : s1.stats.ObjectsInUse_ = s3.stats.ObjectsInUse_ - 1 := by
        rw [← hs1]; split <;> rfl
      have hFrF : s1.stats.FreeObjects_ = s3.stats.FreeObjects_ + 1 := by
        rw [← hs1]; split <;> rfl
      have hPgF : s1.stats.PagesInUse_ = s3.stats.PagesInUse_ := by
        rw [← hs1]; split <;> rfl
      have hDeF : s1.stats.Deallocations_ = s3.stats.Deallocations_ + 1 := by
        rw [← hs1]; split <;> rfl
      rw [hst3] at hInF hFrF hPgF hDeF
      exact ⟨by rw [hcfgF, hcfg3], hInF, hFrF, hPgF, hDeF⟩

end OAModel

namespace OAModel

/-- C8 (amended): for every non-passthrough well-formed call sequence — no
exception raised and every Free targets a currently loaned address — the
invariant `FreeObjects_ + ObjectsInUse_ = PagesInUse_ · ObjectsPerPage_`
holds after the sequence (and hence, prefixes being well formed, between
every pair of public calls). The hypotheses state the invariant for the
start state with `ObjectsInUse_` equal to the number of loaned objects, as
established by the constructor (`loaned = []`). -/
theorem C8_stats_invariant (s0 : OAState) (loaned : List Nat) (ops : List Op)
    (hcpp : s0.config.UseCPPMemManager_ = false)
    (hN : 1 ≤ s0.config.ObjectsPerPage_)
    (hinv1 : s0.stats.ObjectsInUse_ = loaned.length)
    (hinv2 : s0.stats.FreeObjects_ + loaned.length =
      s0.stats.PagesInUse_ * s0.config.ObjectsPerPage_)
    (hwf : WF s0 loaned ops) :
    ∃ r s1, runOps s0 ops = .ok r s1
      ∧ s1.stats.FreeObjects_ + s1.stats.ObjectsInUse_ =
        s1.stats.PagesInUse_ * s1.config.ObjectsPerPage_ := by
  induction ops generalizing s0 loaned with
  | nil =>
      refine ⟨none, s0, rfl, ?_⟩
      rw [hinv1]
      exact hinv2
  | cons op rest ih =>
      cases op with
      | alloc lbl =>
          unfold WF at hwf
          cases hAl : Allocate s0 lbl with
          | ok a s1 =>
              rw [hAl] at hwf
              dsimp only at hwf
              obtain ⟨hcfg, hIn, -, hdisj⟩ := Allocate_ok_stats _ _ _ _ hcpp hAl
              have hcpp1 : s1.config.UseCPPMemManager_ = false := by rw [hcfg]; exact hcpp
              have hN1 : 1 ≤ s1.config.ObjectsPerPage_ := by rw [hcfg]; exact hN
              have hinv1' : s1.stats.ObjectsInUse_ = (a :: loaned).length := by
                simp only [List.length_cons]
                omega
              have hinv2' : s1.stats.FreeObjects_ + (a :: loaned).length =
                  s1.stats.PagesInUse_ * s1.config.ObjectsPerPage_ := by
                simp only [List.length_cons]
                rw [hcfg]
                rcases hdisj with ⟨hf, hp, hne⟩ | ⟨hf0, hfN, hp, -⟩
                · rw [hp]
                  omega
                · rw [hp]
                  have hmul : (s0.stats.PagesInUse_ + 1) * s0.config.ObjectsPerPage_ =
                      s0.stats.PagesInUse_ * s0.config.ObjectsPerPage_ +
                        s0.config.ObjectsPerPage_ := Nat.succ_mul _ _
                  omega
              obtain ⟨r, s2, hrun, hfin⟩ := ih s1 (a :: loaned) hcpp1 hN1 hinv1' hinv2' hwf
              refine ⟨r, s2, ?_, hfin⟩
              unfold runOps applyOp
              dsimp only
              rw [hAl]
              exact hrun
          | exn e s1 =>
              rw [hAl] at hwf
              dsimp only at hwf
          | ub =>
              rw [hAl] at hwf
              dsimp only at hwf
      | free addr =>
          unfold WF at hwf
          obtain ⟨hmem, hwf⟩ := hwf
          cases hFr : Free s0 addr with
          | ok v s1 =>
              rw [hFr] at hwf
              dsimp only at hwf
              obtain ⟨hcfg, hIn, hFrS, hPg, -⟩ := Free_ok_stats _ _ _ _ hcpp hFr
              have hcpp1 : s1.config.UseCPPMemManager_ = false := by rw [hcfg]; exact hcpp
              have hN1 : 1 ≤ s1.config.ObjectsPerPage_ := by rw [hcfg]; exact hN
              have hlen : 0 < loaned.length := List.length_pos_of_mem hmem
              have herase : (loaned.erase addr).length = loaned.length - 1 :=
                List.length_erase_of_mem hmem
              have hinv1' : s1.stats.ObjectsInUse_ = (loaned.erase addr).length := by
                omega
              have hinv2' : s1.stats.FreeObjects_ + (loaned.erase addr).length =
                  s1.stats.PagesInUse_ * s1.config.ObjectsPerPage_ := by
                rw [hcfg, hPg]
                omega
              obtain ⟨r, s2, hrun, hfin⟩ := ih s1 (loaned.erase addr) hcpp1 hN1 hinv1' hinv2' hwf
              refine ⟨r, s2, ?_, hfin⟩
              unfold runOps applyOp
              dsimp only
              rw [hFr]
              exact hrun
          | exn e s1 =>
              rw [hFr] at hwf
              dsimp only at hwf
          | ub =>
              rw [hFr] at hwf
              dsimp only at hwf

end OAModel

namespace OAModel

/-- Witness for `C8_stats_invariant`: a fresh `cfgC1` allocator (two slots),
with the well-formed sequence Allocate; Free(1016). -/
theorem C8_stats_invariant_witness :
    ∃ r s1, runOps (okStateD (mkObjectAllocator 8 cfgC1 1000 0 []))
        [Op.alloc none, Op.free 1016] = .ok r s1
      ∧ s1.stats.FreeObjects_ + s1.stats.ObjectsInUse_ =
        s1.stats.PagesInUse_ * s1.config.ObjectsPerPage_ :=
  C8_stats_invariant (okStateD (mkObjectAllocator 8 cfgC1 1000 0 [])) []
    [Op.alloc none, Op.free 1016] rfl (by decide) rfl (by decide)
    (by exact ⟨by decide, trivial⟩)

end OAModel

namespace OAModel

/-- With header type None the header engine is a no-op. -/
theorem AssignHeaderBlockValues_none (s : OAState) (o : Nat) (al : Bool)
    (lb : Option (List Nat)) (htype : s.config.HBlockInfo_.type_ = .hbNone) :
    AssignHeaderBlockValues s o al lb = .ok () s := by
  unfold AssignHeaderBlockValues
  rw [htype]

/-- With an empty failure schedule, `AllocatePage` always succeeds. -/
theorem AllocatePage_nofail (s : OAState) (hsf : s.sysFail = []) :
    ∃ s1, AllocatePage s = .ok () s1 := by
  unfold AllocatePage sysNew
  rw [hsf]
  exact ⟨_, rfl⟩

/-- A carved page contributes exactly `ObjectsPerPage_` free-list nodes. -/
theorem pageCarve_len (s : OAState) (hN : 1 ≤ s.config.ObjectsPerPage_) :
    (pageCarve s).2.length = s.config.ObjectsPerPage_ := by
  simp only [pageCarve]
  rw [carve_freelist]
  simp only [List.length_append, List.length_reverse, List.length_map, List.length_range,
    List.length_cons, List.length_nil]
  omega

/-- Running an appended sequence composes. -/
theorem runOps_append (s : OAState) (l1 l2 : List Op) (r : Option Nat) (s1 : OAState)
    (h : runOps s l1 = .ok r s1) : runOps s (l1 ++ l2) = runOps s1 l2 := by
  induction l1 generalizing s r with
  | nil =>
      unfold runOps at h
      simp only [Outcome.ok.injEq] at h
      obtain ⟨-, hs⟩ := h
      subst hs
      rfl
  | cons op t ih =>
      unfold runOps at h
      cases happ : applyOp s op with
      | ok v s2 =>
          rw [happ] at h
          show (match applyOp s op with
                | Outcome.ok _ s3 => runOps s3 (t ++ l2)
                | Outcome.exn e s3 => Outcome.exn e s3
                | Outcome.ub => Outcome.ub) = runOps s1 l2
          rw [happ]
          exact ih s2 r h
      | exn e s2 =>
          rw [happ] at h
          simp at h
      | ub =>
          rw [happ] at h
          simp at h

/-- Uniqueness of the decomposition `j = c·N + r` with `1 ≤ r ≤ N`. -/
theorem chartDecomp_unique (N c r c' r' : Nat) (h : c * N + r = c' * N + r')
    (h1 : 1 ≤ r) (h2 : r ≤ N) (h1' : 1 ≤ r') (h2' : r' ≤ N) : c = c' ∧ r = r' := by
  rcases Nat.lt_trichotomy c c' with hlt | heq | hgt
  · exfalso
    have hle : (c + 1) * N ≤ c' * N := Nat.mul_le_mul_right N hlt
    have hsm : (c + 1) * N = c * N + N := Nat.succ_mul c N
    omega
  · subst heq
    omega
  · exfalso
    have hle : (c' + 1) * N ≤ c * N := Nat.mul_le_mul_right N hgt
    have hsm : (c' + 1) * N = c' * N + N := Nat.succ_mul c' N
    omega

end OAModel

namespace OAModel

/-- With header None, no passthrough, an empty failure schedule and the free
list backing the `FreeObjects_` count, `Allocate` succeeds whenever a free
object or a page slot is available, and the count/list correspondence is
maintained. -/
theorem Allocate_none_ok (s : OAState)
    (hcpp : s.config.UseCPPMemManager_ = false)
    (htype : s.config.HBlockInfo_.type_ = .hbNone)
    (hsf : s.sysFail = [])
    (hN : 1 ≤ s.config.ObjectsPerPage_)
    (hflen : s.stats.FreeObjects_ = s.FreeList_.length)
    (hroom : s.stats.FreeObjects_ ≠ 0 ∨ s.stats.PagesInUse_ < s.config.MaxPages_) :
    ∃ a s1, Allocate s none = .ok a s1
      ∧ s1.config = s.config ∧ s1.sysFail = []
      ∧ s1.stats.FreeObjects_ = s1.FreeList_.length := by
  unfold Allocate
  rw [hcpp]
  simp only [Bool.false_eq_true, if_false]
  by_cases hfree : s.stats.FreeObjects_ = 0
  · have hpages : s.stats.PagesInUse_ < s.config.MaxPages_ := by
      rcases hroom with hc | hc
      · exact absurd hfree hc
      · exact hc
    rw [if_pos hfree, if_pos hpages]
    obtain ⟨s2, hap⟩ := AllocatePage_nofail s hsf
    rw [hap]
    obtain ⟨hc2, hst2, -, -, -, hfl2, -, hsf2⟩ := AllocatePage_ok _ _ hap
    have hsf2e : s2.sysFail = [] := by rw [hsf2, hsf]; rfl
    have hlen2 : s2.FreeList_.length = s.config.ObjectsPerPage_ := by
      rw [hfl2]
      exact pageCarve_len s hN
    have hfr2 : s2.stats.FreeObjects_ = s.stats.FreeObjects_ + s.config.ObjectsPerPage_ := by
      rw [hst2]
    cases hfl0 : s2.FreeList_ with
    | nil =>
        rw [hfl0] at hlen2
        exact absurd hlen2.symm (by simp only [List.length_nil]; omega)
    | cons b rest =>
        rw [hfl0] at hlen2
        simp only [List.length_cons] at hlen2
        have hkey : s2.stats.FreeObjects_ - 1 = rest.length := by omega
        dsimp only
        rw [hfl0]
        dsimp only
        rw [AssignHeaderBlockValues_none]
        · dsimp only
          refine ⟨b, _, rfl, ?_, ?_, ?_⟩
          · split
            · split
              · exact hc2
              · exact hc2
            · split
              · exact hc2
              · exact hc2
          · split
            · split
              · exact hsf2e
              · exact hsf2e
            · split
              · exact hsf2e
              · exact hsf2e
          · split
            · split
              · exact hkey
              · exact hkey
            · split
              · exact hkey
              · exact hkey
        · show s2.config.HBlockInfo_.type_ = HBType.hbNone
          rw [hc2]
          exact htype
  · rw [if_neg hfree]
    dsimp only
    cases hfl0 : s.FreeList_ with
    | nil =>
        rw [hfl0] at hflen
        simp only [List.length_nil] at hflen
        exact absurd hflen hfree
    | cons b rest =>
        rw [hfl0] at hflen
        simp only [List.length_cons] at hflen
        have hkey : s.stats.FreeObjects_ - 1 = rest.length := by omega
        dsimp only
        rw [AssignHeaderBlockValues_none]
        · dsimp only
          refine ⟨b, _, rfl, ?_, ?_, ?_⟩
          · split
            · split
              · rfl
              · rfl
            · split
              · rfl
              · rfl
          · split
            · split
              · exact hsf
              · exact hsf
            · split
              · exact hsf
              · exact hsf
          · split
            · split
              · exact hkey
              · exact hkey
            · split
              · exact hkey
              · exact hkey
        · exact htype

end OAModel

namespace OAModel

/-- Chart of an alloc-only run from a fresh non-passthrough allocator with
header None: after `j` successful Allocates the allocator has
`⌈max(j,1)/N⌉` pages (written via the decomposition `j = c·N + r`,
`1 ≤ r ≤ N`) and `N - r` free objects, with the free list backing the count
and the failure schedule empty. -/
def chartInv (N M : Nat) (s : OAState) (j : Nat) : Prop :=
  s.config.UseCPPMemManager_ = false ∧ s.config.HBlockInfo_.type_ = .hbNone
  ∧ s.config.ObjectsPerPage_ = N ∧ s.config.MaxPages_ = M
  ∧ s.sysFail = [] ∧ s.stats.FreeObjects_ = s.FreeList_.length
  ∧ ((j = 0 ∧ s.stats.PagesInUse_ = 1 ∧ s.stats.FreeObjects_ = N)
     ∨ (∃ c rr, j = c * N + rr ∧ 1 ≤ rr ∧ rr ≤ N ∧ s.stats.PagesInUse_ = c + 1
        ∧ s.stats.FreeObjects_ = N - rr))

/-- One more Allocate preserves the chart (while `j < N·M`). -/
theorem chart_step (N M : Nat) (hN : 1 ≤ N) (s : OAState) (j : Nat)
    (hinv : chartInv N M s j) (hj : j < N * M) :
    ∃ a s1, Allocate s none = .ok a s1 ∧ chartInv N M s1 (j + 1) := by
  obtain ⟨hcpp, htype, hNN, hMM, hsf, hflen, hchart⟩ := hinv
  have hroom : s.stats.FreeObjects_ ≠ 0 ∨ s.stats.PagesInUse_ < s.config.MaxPages_ := by
    rcases hchart with ⟨h0, hp, hf⟩ | ⟨c, rr, hj', hr1, hr2, hp, hf⟩
    · left
      rw [hf]
      omega
    · by_cases hrr : rr = N
      · right
        rw [hp, hMM]
        have hsm : (c + 1) * N = c * N + N := Nat.succ_mul c N
        have h2 : N * (c + 1) < N * M := by
          calc N * (c + 1) = (c + 1) * N := Nat.mul_comm _ _
            _ = j := by omega
            _ < N * M := hj
        have := Nat.lt_of_mul_lt_mul_left h2
        omega
      · left
        rw [hf]
        omega
  obtain ⟨a, s1, hA, hc1, hsf1, hflen1⟩ :=
    Allocate_none_ok s hcpp htype hsf (by rw [hNN]; exact hN) hflen hroom
  obtain ⟨hcfgA, hIn, hAl, hdisj⟩ := Allocate_ok_stats _ _ _ _ hcpp hA
  refine ⟨a, s1, hA, by rw [hc1]; exact hcpp, by rw [hc1]; exact htype,
    by rw [hc1]; exact hNN, by rw [hc1]; exact hMM, hsf1, hflen1, ?_⟩
  rcases hchart with ⟨h0, hp, hf⟩ | ⟨c, rr, hj', hr1, hr2, hp, hf⟩
  · rcases hdisj with ⟨hf1, hp1, -⟩ | ⟨hf0, -, -, -⟩
    · right
      exact ⟨0, 1, by omega, by omega, hN, by omega, by omega⟩
    · exfalso
      omega
  · by_cases hrr : rr = N
    · rcases hdisj with ⟨-, -, hne⟩ | ⟨-, hfN, hpg, -⟩
      · exfalso
        omega
      · right
        refine ⟨c + 1, 1, ?_, by omega, hN, by omega, by omega⟩
        have hsm : (c + 1) * N = c * N + N := Nat.succ_mul c N
        omega
    · rcases hdisj with ⟨hf1, hp1, -⟩ | ⟨hf0, -, -, -⟩
      · right
        exact ⟨c, rr + 1, by omega, by omega, by omega, by omega, by omega⟩
      · exfalso
        omega

/-- Running `m` further Allocates from any state on the chart stays on the
chart and never faults, as long as the chart index stays within `N·M`. -/
theorem chart_run (N M : Nat) (hN : 1 ≤ N) :
    ∀ (m j : Nat) (s : OAState), chartInv N M s j → j + m ≤ N * M →
      ∃ r s1, runOps s (List.replicate m (Op.alloc none)) = .ok r s1
        ∧ chartInv N M s1 (j + m) := by
  intro m
  induction m with
  | zero =>
      intro j s hinv _
      exact ⟨none, s, rfl, hinv⟩
  | succ m ih =>
      intro j s hinv hle
      obtain ⟨a, s1, hA, hinv1⟩ := chart_step N M hN s j hinv (by omega)
      obtain ⟨r, s2, hrun, hinv2⟩ := ih (j + 1) s1 hinv1 (by omega)
      refine ⟨r, s2, ?_, by rw [show j + (m + 1) = (j + 1) + m by omega]; exact hinv2⟩
      rw [List.replicate_succ]
      show (match applyOp s (Op.alloc none) with
            | Outcome.ok _ s3 => runOps s3 (List.replicate m (Op.alloc none))
            | Outcome.exn e s3 => Outcome.exn e s3
            | Outcome.ub => Outcome.ub) = Outcome.ok r s2
      have happ : applyOp s (Op.alloc none) = .ok (some a) s1 := by
        unfold applyOp
        dsimp only
        rw [hA]
      rw [happ]
      exact hrun

/-- Non-passthrough configuration with header None and arbitrary page
geometry, used to state the amended page-creation law. -/
def cfgNoneFor (N M p : Nat) (d : Bool) : OAConfig :=
  { UseCPPMemManager_ := false
    ObjectsPerPage_ := N
    MaxPages_ := M
    DebugOn_ := d
    PadBytes_ := p
    HBlockInfo_ := { type_ := .hbNone, size_ := 0 } }

/-- C7 (amended): with `objects_per_page = N ≥ 1` and `max_pages = M ≥ 1`
(non-passthrough, header None), for every `1 ≤ k ≤ N·M` the first `k`
consecutive Allocates from a freshly constructed allocator all succeed, and
the k-th one creates a new page iff `k > 1` and `(k−1) mod N = 0` — NOT iff
`k mod N = 1`: the first page is created by the constructor, so the first
Allocate (which satisfies `1 mod N = 1` for `N ≥ 2`) creates no page. -/
theorem C7_page_creation_law (osz p a0 fv : Nat) (d : Bool) (N M k : Nat)
    (hN : 1 ≤ N) (hM : 1 ≤ M) (hk1 : 1 ≤ k) (hk2 : k ≤ N * M)
    (s0 : OAState)
    (h0 : mkObjectAllocator osz (cfgNoneFor N M p d) a0 fv [] = .ok () s0) :
    ∃ r1 s1 r2 s2,
      runOps s0 (List.replicate (k - 1) (Op.alloc none)) = .ok r1 s1
      ∧ runOps s0 (List.replicate k (Op.alloc none)) = .ok r2 s2
      ∧ (s2.stats.PagesInUse_ = s1.stats.PagesInUse_ + 1
         ↔ ((k - 1) % N = 0 ∧ 1 < k)) := by
  have hinv0 : chartInv N M s0 0 := by
    unfold mkObjectAllocator at h0
    dsimp only [cfgNoneFor] at h0
    simp only [Bool.false_eq_true, if_false] at h0
    obtain ⟨hcfg, hst, -, -, -, hfl, -, hsfq⟩ := AllocatePage_ok _ _ h0
    have hcpp0 : s0.config.UseCPPMemManager_ = false := by rw [hcfg]
    have htype0 : s0.config.HBlockInfo_.type_ = .hbNone := by rw [hcfg]
    have hN0 : s0.config.ObjectsPerPage_ = N := by rw [hcfg]
    have hM0 : s0.config.MaxPages_ = M := by rw [hcfg]
    have hsf0 : s0.sysFail = [] := hsfq.trans rfl
    have hpg0 : s0.stats.PagesInUse_ = 1 := by rw [hst]
    have hfr0 : s0.stats.FreeObjects_ = N := by
      rw [hst]
      dsimp only
      omega
    have hlen0 : s0.FreeList_.length = N := by
      rw [hfl]
      exact pageCarve_len _ hN
    exact ⟨hcpp0, htype0, hN0, hM0, hsf0, by rw [hfr0, hlen0], Or.inl ⟨rfl, hpg0, hfr0⟩⟩
  obtain ⟨r1, s1, hrun1, hinv1⟩ := chart_run N M hN (k - 1) 0 s0 hinv0 (by omega)
  rw [Nat.zero_add] at hinv1
  obtain ⟨a, s2, hA, hinv2⟩ := chart_step N M hN s1 (k - 1) hinv1 (by
    have hNM : 1 ≤ N * M := Nat.mul_le_mul hN hM
    omega)
  have hrun2 : runOps s0 (List.replicate k (Op.alloc none)) = .ok none s2 := by
    have hk' : k = (k - 1) + 1 := by omega
    rw [hk', List.replicate_succ', runOps_append s0 _ _ r1 s1 hrun1]
    show (match applyOp s1 (Op.alloc none) with
          | Outcome.ok _ s3 => runOps s3 ([] : List Op)
          | Outcome.exn e s3 => Outcome.exn e s3
          | Outcome.ub => Outcome.ub) = Outcome.ok none s2
    have happ : applyOp s1 (Op.alloc none) = .ok (some a) s2 := by
      unfold applyOp
      dsimp only
      rw [hA]
    rw [happ]
    rfl
  refine ⟨r1, s1, none, s2, hrun1, hrun2, ?_⟩
  rw [show k - 1 + 1 = k from by omega] at hinv2
  obtain ⟨-, -, -, -, -, -, hch1⟩ := hinv1
  obtain ⟨-, -, -, -, -, -, hch2⟩ := hinv2
  rcases hch1 with ⟨h10, hp1, -⟩ | ⟨c1, q1, hj1, hq11, hq12, hp1, -⟩
  · have hk : k = 1 := by omega
    rcases hch2 with ⟨h20, -, -⟩ | ⟨c2, q2, hj2, hq21, hq22, hp2, -⟩
    · exfalso
      omega
    · have hc20 : c2 = 0 := by
        rcases Nat.eq_zero_or_pos c2 with h | h
        · exact h
        · exfalso
          have : 1 * N ≤ c2 * N := Nat.mul_le_mul_right N h
          omega
      constructor
      · intro hcontra
        exfalso
        rw [hc20] at hp2
        omega
      · rintro ⟨-, hk2'⟩
        exfalso
        omega
  · rcases hch2 with ⟨h20, -, -⟩ | ⟨c2, q2, hj2, hq21, hq22, hp2, -⟩
    · exfalso
      omega
    · by_cases hq1N : q1 = N
      · have hsm : (c1 + 1) * N = c1 * N + N := Nat.succ_mul c1 N
        have heq : (c1 + 1) * N + 1 = c2 * N + q2 := by omega
        obtain ⟨hc2e, hq2e⟩ :=
          chartDecomp_unique N (c1 + 1) 1 c2 q2 heq (by omega) (by omega) hq21 hq22
        constructor
        · rintro -
          constructor
          · have hkk : k - 1 = (c1 + 1) * N := by omega
            rw [hkk]
            exact Nat.mul_mod_left _ _
          · omega
        · rintro -
          omega
      · have heq : c1 * N + (q1 + 1) = c2 * N + q2 := by omega
        obtain ⟨hc2e, hq2e⟩ :=
          chartDecomp_unique N c1 (q1 + 1) c2 q2 heq (by omega) (by omega) hq21 hq22
        constructor
        · intro hcontra
          exfalso
          omega
        · rintro ⟨hmod, -⟩
          exfalso
          have hmod' : (k - 1) % N = q1 := by
            have hkk : k - 1 = q1 + c1 * N := by omega
            rw [hkk, Nat.add_mul_mod_self_right]
            exact Nat.mod_eq_of_lt (by omega)
          omega

/-- Witness for `C7_page_creation_law`: `N = 2`, `M = 2`, `k = 3` on a fresh
allocator; the third Allocate creates the second page and `(3−1) mod 2 = 0`. -/
theorem C7_page_creation_law_witness :
    ∃ r1 s1 r2 s2,
      runOps (okStateD (mkObjectAllocator 8 (cfgNoneFor 2 2 0 false) 1000 0 []))
          (List.replicate (3 - 1) (Op.alloc none)) = .ok r1 s1
      ∧ runOps (okStateD (mkObjectAllocator 8 (cfgNoneFor 2 2 0 false) 1000 0 []))
          (List.replicate 3 (Op.alloc none)) = .ok r2 s2
      ∧ (s2.stats.PagesInUse_ = s1.stats.PagesInUse_ + 1
         ↔ ((3 - 1) % 2 = 0 ∧ 1 < 3)) :=
  C7_page_creation_law 8 0 1000 0 false 2 2 3 (by decide) (by decide) (by decide)
    (by decide) (okStateD (mkObjectAllocator 8 (cfgNoneFor 2 2 0 false) 1000 0 [])) rfl

end OAModel
